import Mathlib

/-!
# Verification of the banhammer-lite detection engine

Shallow embedding of the core of `banhammer-lite`:

* `src/core/tracker.py` — per-user IP activity tracking (`UserInfo`, `UserTracker`);
* `src/core/panel_api.py` — cached per-user device limits (`PanelState`);
* `src/server.py` — the detection engine (`BanhammerServer._check_concurrent_ips`,
  `_check_limits`, `_add_to_banlist`, `_auth_middleware`).

Python `datetime` values are modelled as integers (`Time`); only ordering and
subtraction of intervals matter to the code.  Python `dict`s (which have unique
keys) are modelled as association lists with `mfind`/`minsert`/`merase`;
Python `set`s of strings are modelled either as `Finset String` (IP sets,
where union and cardinality matter) or as duplicate-free lists (the violator
sets, where iteration order matters to the sweep loop).
-/

/-- Wall-clock timestamps, modelled as integers. -/
abbrev Time := Int

section AssocMap

variable {α : Type}

/-- Lookup in an association list, mirroring Python `d.get(k)` / `d[k]`. -/
def mfind (m : List (String × α)) (k : String) : Option α :=
  match m with
  | [] => none
  | (k', v) :: rest => if k' = k then some v else mfind rest k

/-- Key update, mirroring Python `d[k] = v`: replace the binding if the key is
present, otherwise append a new binding. -/
def minsert (m : List (String × α)) (k : String) (v : α) : List (String × α) :=
  match m with
  | [] => [(k, v)]
  | (k', v') :: rest => if k' = k then (k, v) :: rest else (k', v') :: minsert rest k v

/-- Key removal, mirroring Python `del d[k]` / `d.pop(k, None)` on a dict
(whose keys are unique). -/
def merase (m : List (String × α)) (k : String) : List (String × α) :=
  m.filter (fun p => p.1 ≠ k)

/-- The key list of an association map, mirroring Python `list(d.keys())`. -/
def mkeys (m : List (String × α)) : List String :=
  m.map Prod.fst






end AssocMap

section StringSet

/-- Python `set.add` on a set of strings modelled as a duplicate-free list. -/
def sadd (l : List String) (x : String) : List String :=
  if x ∈ l then l else l ++ [x]

/-- Python `set.discard` on a set of strings modelled as a list. -/
def sdiscard (l : List String) (x : String) : List String :=
  l.filter (fun y => y ≠ x)





end StringSet

/-! ## `src/core/parser.py` — `LogEntry` -/

/-- One parsed access-log line (class `LogEntry` in `src/core/parser.py`).
The `raw_line` field is omitted: it is never read by the tracker or by the
detection engine. -/
structure LogEntry where
  timestamp : Time
  source_ip : String
  protocol : String
  destination : String
  destination_port : Nat
  action : String
  email : String
deriving DecidableEq, Repr

/-! ## `src/core/tracker.py` — data model -/

/-- `get_subnet_24` in `src/core/tracker.py`. -/
def get_subnet_24 (ip : String) : String :=
  let parts := ip.splitOn "."
  if parts.length = 4 then String.intercalate "." (parts.take 3) else ip

/-- `group_ips_by_subnet` in `src/core/tracker.py`. -/
def group_ips_by_subnet (ips : Finset String) : Finset String :=
  ips.image get_subnet_24

/-- One request record (class `RequestLog` in `src/core/tracker.py`). -/
structure RequestLog where
  timestamp : Time
  source_ip : String
  destination : String
  dest_port : Nat
  action : String
  node_name : String
deriving DecidableEq, Repr

/-- Per-IP statistics (class `IPStats` in `src/core/tracker.py`). -/
structure IPStats where
  last_seen : Time
  request_count : Nat
deriving DecidableEq, Repr

/-- Per-user state (class `UserInfo` in `src/core/tracker.py`).  The
`ip_timestamps` backward-compatibility mirror is omitted: it always carries
the `last_seen` column of `ip_stats` and is never read by the engine. -/
structure UserInfo where
  email : String
  ip_stats : List (String × IPStats)
  request_count : Nat
  blocked_count : Nat
  last_seen : Option Time
  first_seen : Option Time
  recent_requests : List RequestLog
deriving DecidableEq, Repr

/-- A freshly constructed `UserInfo(email=email)` with dataclass defaults. -/
def UserInfo.init (email : String) : UserInfo :=
  { email := email
    ip_stats := []
    request_count := 0
    blocked_count := 0
    last_seen := none
    first_seen := none
    recent_requests := [] }

/-- `UserInfo._max_requests` (dataclass default `100`). -/
def maxRequests : Nat := 100

namespace UserInfo

/-- `UserInfo.add_ip` in `src/core/tracker.py`. -/
def add_ip (u : UserInfo) (ip : String) (timestamp : Time) : UserInfo :=
  match mfind u.ip_stats ip with
  | some s =>
      { u with ip_stats := minsert u.ip_stats ip ⟨timestamp, s.request_count + 1⟩ }
  | none =>
      { u with ip_stats := minsert u.ip_stats ip ⟨timestamp, 1⟩ }

/-- `UserInfo.add_request` in `src/core/tracker.py`: append, then keep the
last `_max_requests` records. -/
def add_request (u : UserInfo) (r : RequestLog) : UserInfo :=
  let rs := u.recent_requests ++ [r]
  { u with recent_requests := if maxRequests < rs.length then rs.drop (rs.length - maxRequests) else rs }

/-- `UserInfo.get_recent_ips` in `src/core/tracker.py`: IPs of `ip_stats`
whose `last_seen` is within `window_seconds` of the user's own `last_seen`
and whose `request_count` is at least `min_requests`. -/
def get_recent_ips (u : UserInfo) (window_seconds : Int) (min_requests : Nat) : Finset String :=
  match u.last_seen with
  | none => ∅
  | some ls =>
      ((u.ip_stats.filter (fun p =>
          decide (ls - window_seconds ≤ p.2.last_seen) &&
          decide (min_requests ≤ p.2.request_count))).map Prod.fst).toFinset

/-- `UserInfo.cleanup_old_ips` in `src/core/tracker.py` (only the resulting
state; the Python function also returns the number of removed IPs, which no
caller uses). -/
def cleanup_old_ips (u : UserInfo) (window_seconds : Int) : UserInfo :=
  match u.last_seen with
  | none => u
  | some ls =>
      { u with ip_stats := u.ip_stats.filter (fun p => decide (ls - window_seconds ≤ p.2.last_seen)) }

end UserInfo

/-- State of `UserTracker` in `src/core/tracker.py`. -/
structure UserTracker where
  users : List (String × UserInfo)
  total_requests : Nat
  total_blocked : Nat
  window_seconds : Int
  max_age_seconds : Int
  latest_timestamp : Option Time
deriving DecidableEq, Repr

/-- `UserTracker(window_seconds=..., max_age_seconds=...)`. -/
def UserTracker.init (window_seconds max_age_seconds : Int) : UserTracker :=
  { users := []
    total_requests := 0
    total_blocked := 0
    window_seconds := window_seconds
    max_age_seconds := max_age_seconds
    latest_timestamp := none }

/-- The per-user effect of `UserTracker.process_entry`: update the stored
`UserInfo` exactly as lines 236–255 of `src/core/tracker.py` do. -/
def applyEntry (u : UserInfo) (e : LogEntry) (node_name : String) : UserInfo :=
  let u1 := u.add_ip e.source_ip e.timestamp
  let u2 := { u1 with request_count := u1.request_count + 1 }
  let u3 := u2.add_request ⟨e.timestamp, e.source_ip, e.destination, e.destination_port, e.action, node_name⟩
  let u4 := { u3 with
    first_seen := match u3.first_seen with | none => some e.timestamp | some f => some f
    last_seen := some e.timestamp }
  if e.action = "BLOCK" then { u4 with blocked_count := u4.blocked_count + 1 } else u4

namespace UserTracker

/-- `UserTracker.process_entry` in `src/core/tracker.py`; returns the updated
tracker together with the updated user (the Python method returns the user,
mutating the tracker in place). -/
def process_entry (tr : UserTracker) (e : LogEntry) (node_name : String) :
    UserTracker × UserInfo :=
  let u0 := (mfind tr.users e.email).getD (UserInfo.init e.email)
  let u := applyEntry u0 e node_name
  let latest :=
    match tr.latest_timestamp with
    | none => some e.timestamp
    | some l => some (if l < e.timestamp then e.timestamp else l)
  ({ tr with
      users := minsert tr.users e.email u
      total_requests := tr.total_requests + 1
      total_blocked := if e.action = "BLOCK" then tr.total_blocked + 1 else tr.total_blocked
      latest_timestamp := latest }, u)

/-- `UserTracker.cleanup_old_data` in `src/core/tracker.py` (only the
resulting state; the removed-user count the Python method returns is unused
by the server). -/
def cleanup_old_data (tr : UserTracker) : UserTracker :=
  match tr.latest_timestamp with
  | none => tr
  | some latest =>
      let cutoff := latest - tr.max_age_seconds
      { tr with
          users := tr.users.filterMap (fun p =>
            match p.2.last_seen with
            | some ls =>
                if ls < cutoff then none
                else some (p.1, p.2.cleanup_old_ips tr.window_seconds)
            | none => some (p.1, p.2.cleanup_old_ips tr.window_seconds)) }

/-- `UserTracker.get_user`. -/
def get_user (tr : UserTracker) (email : String) : Option UserInfo :=
  mfind tr.users email

end UserTracker

/-! ## `src/core/panel_api.py` — user-limit directory -/

/-- The cached state of class `PanelAPI` in `src/core/panel_api.py`: the
per-user cache keeps several fields, of which the detection engine reads only
`limit` (`hwidDeviceLimit`), so the cache is modelled as a map from user id to
that limit; `loaded` models the `_loaded` flag behind the `is_loaded`
property. -/
structure PanelState where
  users : List (String × Int)
  loaded : Bool
deriving DecidableEq, Repr

/-- `PanelAPI.get_limit`. -/
def PanelState.get_limit (p : PanelState) (user_id : String) : Option Int :=
  mfind p.users user_id

/-- `PanelAPI.is_loaded`. -/
def PanelState.is_loaded (p : PanelState) : Bool :=
  p.loaded

/-! ## `src/server.py` — detection engine -/

/-- The configuration knobs of `BanhammerServer.__init__` that the detection
engine reads, plus the presence flags of the optional `database` and
`telegram` modules (`HAS_DATABASE`, `HAS_TELEGRAM`). -/
structure ServerConfig where
  concurrent_window : Int
  trigger_period : Int
  trigger_count : Nat
  banlist_threshold : Int
  data_retention : Int
  notification_interval : Int
  subnet_grouping : Bool
  whitelist_emails : List String
  api_token : String
  has_database : Bool
  has_telegram : Bool
deriving DecidableEq, Repr

/-- The mutable detection state of `BanhammerServer`: `_user_triggers`,
`_violator_first_seen`, `_violator_ips`, `_confirmed_violators`,
`_user_limits`, `_current_violators`, `_last_notification`. -/
structure DetectState where
  user_triggers : List (String × List Time)
  violator_first_seen : List (String × Time)
  violator_ips : List (String × Finset String)
  confirmed_violators : List String
  user_limits : List (String × Int)
  current_violators : List String
  last_notification : List (String × Time)
deriving DecidableEq

/-- The empty detection state built by `BanhammerServer.__init__`. -/
def DetectState.init : DetectState :=
  { user_triggers := []
    violator_first_seen := []
    violator_ips := []
    confirmed_violators := []
    user_limits := []
    current_violators := []
    last_notification := [] }

/-- External effects of the detection engine on the ban-list sink and the
notifier. -/
inductive Event where
  | banCreated (email : String)
  | banUpdated (email : String)
  | notifNew (email : String)
  | notifContinues (email : String)
deriving DecidableEq, Repr

/-- The concurrent-IP count of `_check_concurrent_ips` / the query surface:
number of distinct IPs, or of distinct /24 subnets when `SUBNET_GROUPING` is
enabled. -/
def engine_ip_count (cfg : ServerConfig) (ips : Finset String) : Nat :=
  if cfg.subnet_grouping then (group_ips_by_subnet ips).card else ips.card

/-- Lines 517–524 of `src/server.py`: the trigger list after appending the
entry timestamp `t` and pruning entries older than `t - TRIGGER_PERIOD`. -/
def pruned_triggers (cfg : ServerConfig) (st : DetectState) (email : String) (t : Time) :
    List Time :=
  (((mfind st.user_triggers email).getD []) ++ [t]).filter
    (fun x => decide (t - cfg.trigger_period ≤ x))

/-- `BanhammerServer._check_concurrent_ips` (lines 490–537 of
`src/server.py`), evaluated on the user state returned by
`process_entry` and the entry's own timestamp. -/
def check_concurrent_ips (cfg : ServerConfig) (panel : PanelState) (st : DetectState)
    (user : UserInfo) (timestamp : Time) : DetectState :=
  let email := user.email
  if email ∈ cfg.whitelist_emails then st
  else
    match panel.get_limit email with
    | none => st
    | some limit =>
      if limit = 0 then st
      else
        let st1 := { st with user_limits := minsert st.user_limits email limit }
        let concurrent_ips := user.get_recent_ips cfg.concurrent_window 1
        let ip_count := engine_ip_count cfg concurrent_ips
        if limit < (ip_count : Int) then
          -- the `user_limits` write does not touch `user_triggers`, so the
          -- trigger list may be read off `st` directly
          let ts2 := pruned_triggers cfg st email timestamp
          let st2 := { st1 with user_triggers := minsert st1.user_triggers email ts2 }
          if cfg.trigger_count ≤ ts2.length then
            let st3 :=
              if email ∈ st2.current_violators then st2
              else { st2 with
                violator_first_seen := minsert st2.violator_first_seen email timestamp
                violator_ips := minsert st2.violator_ips email ∅ }
            let st4 := { st3 with current_violators := sadd st3.current_violators email }
            { st4 with
              violator_ips := minsert st4.violator_ips email
                (((mfind st4.violator_ips email).getD ∅) ∪ concurrent_ips) }
          else st2
        else st1

/-- `BanhammerServer._add_to_banlist` (lines 610–707 of `src/server.py`).
The external calls are modelled by two oracles: `active_ban` is the result of
`db.get_active_ban` and `notif_ok` tells whether the notification send
succeeds (a failed send raises, so `_last_notification` is only written
after a successful send).  Database write failures are swallowed by the code
and do not touch engine state. -/
def add_to_banlist (cfg : ServerConfig) (now : Time) (active_ban notif_ok : Bool)
    (st : DetectState) (email : String) : DetectState × List Event :=
  if cfg.has_database then
    let st1 := { st with confirmed_violators := sadd st.confirmed_violators email }
    if active_ban then
      if cfg.has_telegram then
        let gate :=
          match mfind st1.last_notification email with
          | none => true
          | some l => decide (cfg.notification_interval ≤ now - l)
        if gate then
          if notif_ok then
            ({ st1 with last_notification := minsert st1.last_notification email now },
             [Event.banUpdated email, Event.notifContinues email])
          else (st1, [Event.banUpdated email, Event.notifContinues email])
        else (st1, [Event.banUpdated email])
      else (st1, [Event.banUpdated email])
    else
      if cfg.has_telegram then
        if notif_ok then
          ({ st1 with last_notification := minsert st1.last_notification email now },
           [Event.banCreated email, Event.notifNew email])
        else (st1, [Event.banCreated email, Event.notifNew email])
      else (st1, [Event.banCreated email])
  else (st, [])

/-- The ban-list escalation tail of one violator-loop iteration of
`BanhammerServer._check_limits` (lines 590–597 of `src/server.py`): if a
`violator_first_seen` timestamp exists and the violation has lasted at least
`BANLIST_THRESHOLD`, call `_add_to_banlist`.  (The `ip_count` and `limit`
arguments the Python code passes along only shape log and notification text,
not engine state.) -/
def ban_check (cfg : ServerConfig) (now : Time) (active_ban notif_ok : Bool)
    (st : DetectState) (email : String) : DetectState × List Event :=
  match mfind st.violator_first_seen email with
  | none => (st, [])
  | some first_seen =>
    if cfg.banlist_threshold ≤ now - first_seen then
      add_to_banlist cfg now active_ban notif_ok st email
    else (st, [])

/-- One iteration of the first loop of `BanhammerServer._check_limits`
(lines 571–597 of `src/server.py`): skip when the user state is gone;
otherwise re-prune the violator's triggers against the real-time cutoff and
demote (`continue`) if fewer than `TRIGGER_COUNT` remain; otherwise fall
through to the ban-list check. -/
def check_limits_user (cfg : ServerConfig) (now : Time) (tracker : UserTracker)
    (active_ban notif_ok : Bool) (st : DetectState) (email : String) :
    DetectState × List Event :=
  match tracker.get_user email with
  | none => (st, [])
  | some _user =>
    match mfind st.user_triggers email with
    | none => ban_check cfg now active_ban notif_ok st email
    | some ts =>
      let ts2 := ts.filter (fun x => decide (now - cfg.trigger_period ≤ x))
      let stA := { st with user_triggers := minsert st.user_triggers email ts2 }
      if ts2.length < cfg.trigger_count then
        ({ stA with
            current_violators := sdiscard stA.current_violators email
            violator_first_seen := merase stA.violator_first_seen email
            violator_ips := merase stA.violator_ips email }, [])
      else ban_check cfg now active_ban notif_ok stA email

/-- One iteration of the second loop of `BanhammerServer._check_limits`
(lines 600–608 of `src/server.py`): prune the trigger list of a user that is
not currently a violator, deleting the entry once it becomes empty. -/
def prune_inactive (cfg : ServerConfig) (now : Time) (st : DetectState) (email : String) :
    DetectState :=
  if email ∈ st.current_violators then st
  else
    match mfind st.user_triggers email with
    | none => st
    | some ts =>
      let ts2 := ts.filter (fun x => decide (now - cfg.trigger_period ≤ x))
      if ts2.isEmpty then { st with user_triggers := merase st.user_triggers email }
      else { st with user_triggers := minsert st.user_triggers email ts2 }

/-- `BanhammerServer._check_limits` (lines 563–608 of `src/server.py`):
return immediately when the panel has never loaded, otherwise run the
violator loop over a snapshot of `_current_violators` and then the
orphan-trigger pruning loop over a snapshot of the trigger keys.  The
oracles are per-email versions of the ones of `add_to_banlist`. -/
def check_limits (cfg : ServerConfig) (panel : PanelState) (now : Time)
    (tracker : UserTracker) (active_ban notif_ok : String → Bool)
    (st : DetectState) : DetectState × List Event :=
  if panel.is_loaded then
    let p := st.current_violators.foldl
      (fun (acc : DetectState × List Event) email =>
        let r := check_limits_user cfg now tracker (active_ban email) (notif_ok email) acc.1 email
        (r.1, acc.2 ++ r.2)) (st, [])
    ((mkeys p.1.user_triggers).foldl (prune_inactive cfg now) p.1, p.2)
  else (st, [])

/-! ## Combined system state and reachability -/

/-- Tracker state plus detection state: everything the serialization domain
of the server owns. -/
structure SystemState where
  tracker : UserTracker
  det : DetectState
deriving DecidableEq

/-- The state right after `BanhammerServer.__init__`: an empty tracker
configured with `CONCURRENT_WINDOW` and `DATA_RETENTION`, and empty
detection tables. -/
def initState (cfg : ServerConfig) : SystemState :=
  { tracker := UserTracker.init cfg.concurrent_window cfg.data_retention
    det := DetectState.init }

/-- `BanhammerServer._on_entry`: process the entry through the tracker, then
evaluate `_check_concurrent_ips` on the updated user with the entry's own
timestamp. -/
def entry_step (cfg : ServerConfig) (panel : PanelState) (s : SystemState)
    (e : LogEntry) (node : String) : SystemState :=
  let r := s.tracker.process_entry e node
  { tracker := r.1, det := check_concurrent_ips cfg panel s.det r.2 e.timestamp }

/-- A periodic `_check_limits` sweep (state effect only). -/
def sweep_step (cfg : ServerConfig) (panel : PanelState) (now : Time)
    (active_ban notif_ok : String → Bool) (s : SystemState) : SystemState :=
  { s with det := (check_limits cfg panel now s.tracker active_ban notif_ok s.det).1 }

/-- A periodic `tracker.cleanup_old_data` run. -/
def cleanup_step (s : SystemState) : SystemState :=
  { s with tracker := s.tracker.cleanup_old_data }

/-- States of the detection engine reachable from start-up by any
interleaving of entry evaluations, periodic limit sweeps and tracker
cleanups, with the panel cache free to change between steps. -/
inductive Reachable (cfg : ServerConfig) : SystemState → Prop where
  | init : Reachable cfg (initState cfg)
  | entry {s : SystemState} (panel : PanelState) (e : LogEntry) (node : String) :
      Reachable cfg s → Reachable cfg (entry_step cfg panel s e node)
  | sweep {s : SystemState} (panel : PanelState) (now : Time)
      (active_ban notif_ok : String → Bool) :
      Reachable cfg s → Reachable cfg (sweep_step cfg panel now active_ban notif_ok s)
  | cleanup {s : SystemState} :
      Reachable cfg s → Reachable cfg (cleanup_step s)

/-! ## `src/server.py` — HTTP auth middleware -/

/-- The token-bearing parts of an HTTP request as `_auth_middleware` reads
them: the `Authorization` header (`request.headers.get('Authorization', '')`)
and the `token` query parameter (`request.query.get('token', '')`), both
defaulting to the empty string when absent. -/
structure ApiRequest where
  auth_header : String
  query_token : String
deriving DecidableEq, Repr

/-- Python `s.startswith(pre)`, on the character sequences of the strings
(identical to the byte-level test here because `Bearer ` is ASCII). -/
def str_starts_with (s pre : String) : Bool :=
  pre.data.isPrefixOf s.data

/-- Python `s[n:]`: drop the first `n` characters. -/
def str_drop (s : String) (n : Nat) : String :=
  String.mk (s.data.drop n)

/-- Token extraction of `_auth_middleware`: `Bearer `-prefixed header wins
(`auth_header[7:]`), otherwise the `token` query parameter. -/
def request_token (r : ApiRequest) : String :=
  if str_starts_with r.auth_header "Bearer " then str_drop r.auth_header 7 else r.query_token

/-- Outcome of the middleware: either the 401 response is returned without
invoking the wrapped handler, or the wrapped handler is invoked. -/
inductive AuthResult where
  | unauthorized (status : Nat) (body : String)
  | handled
deriving DecidableEq, Repr

/-- `BanhammerServer._auth_middleware` (lines 138–152 of `src/server.py`).
When `API_TOKEN` is empty (falsy) the middleware performs no check at all. -/
def auth_middleware (api_token : String) (r : ApiRequest) : AuthResult :=
  if api_token ≠ "" then
    if request_token r ≠ api_token then
      AuthResult.unauthorized 401 "\x7b\"error\": \"Unauthorized\"\x7d"
    else AuthResult.handled
  else AuthResult.handled

/-! ## Run helpers and observations -/

/-- Process a list of `(entry, node_name)` pairs through the tracker. -/
def runEntries (tr : UserTracker) (es : List (LogEntry × String)) : UserTracker :=
  es.foldl (fun tr p => (tr.process_entry p.1 p.2).1) tr

/-- A tracker operation: `process_entry` or `cleanup_old_data`. -/
inductive TrackerOp where
  | entry (e : LogEntry) (node : String)
  | cleanup
deriving DecidableEq

/-- Run a list of tracker operations. -/
def runOps (tr : UserTracker) (ops : List TrackerOp) : UserTracker :=
  ops.foldl (fun tr op =>
    match op with
    | TrackerOp.entry e node => (tr.process_entry e node).1
    | TrackerOp.cleanup => tr.cleanup_old_data) tr

/-- The entry timestamps of an operation list, in processing order. -/
def entryTimes (ops : List TrackerOp) : List Time :=
  ops.filterMap (fun op =>
    match op with
    | TrackerOp.entry e _ => some e.timestamp
    | TrackerOp.cleanup => none)

/-- The timestamps of the processed entries carrying a given `(email, ip)`
pair, in processing order. -/
def matchTs (es : List (LogEntry × String)) (email ip : String) : List Time :=
  es.filterMap (fun p =>
    if p.1.email = email ∧ p.1.source_ip = ip then some p.1.timestamp else none)

/-- Observation: `tracker._users[email].ip_stats[ip].last_seen`, when both
keys are present. -/
def ipLastSeen (tr : UserTracker) (email ip : String) : Option Time :=
  (mfind tr.users email).bind (fun u => (mfind u.ip_stats ip).map (fun s => s.last_seen))

/-- Observation: `tracker._users[email].first_seen`. -/
def userFirstSeen (tr : UserTracker) (email : String) : Option Time :=
  (mfind tr.users email).bind (fun u => u.first_seen)

/-- Observation: `tracker._users[email].last_seen`. -/
def userLastSeen (tr : UserTracker) (email : String) : Option Time :=
  (mfind tr.users email).bind (fun u => u.last_seen)

/-- Observation: `tracker._users[email].get_recent_ips(w, 1)`, the empty set
when the user is unknown. -/
def recentIpsOf (tr : UserTracker) (email : String) (w : Int) : Finset String :=
  ((mfind tr.users email).map (fun u => u.get_recent_ips w 1)).getD ∅

/-- Observation: `server._violator_ips.get(email, set())`. -/
def violatorIpsOf (st : DetectState) (email : String) : Finset String :=
  (mfind st.violator_ips email).getD ∅

/-- Observation: `server._user_triggers.get(email, [])`. -/
def triggersOf (st : DetectState) (email : String) : List Time :=
  (mfind st.user_triggers email).getD []

/-- The state-only effect of one iteration of the violator loop of
`_check_limits`. -/
def sweepStep (cfg : ServerConfig) (now : Time) (tracker : UserTracker)
    (ab nk : String → Bool) (st : DetectState) (email : String) : DetectState :=
  (check_limits_user cfg now tracker (ab email) (nk email) st email).1

/-! ## Invariant predicates (spec §3.2) -/

/-- The per-user invariants of spec §3.2: every IP's `last_seen` is bounded
by the user's `last_seen`, `blocked_count ≤ request_count`, and
`first_seen ≤ last_seen`. -/
def UserInv (u : UserInfo) : Prop :=
  (∀ p ∈ u.ip_stats, ∃ L, u.last_seen = some L ∧ p.2.last_seen ≤ L) ∧
  u.blocked_count ≤ u.request_count ∧
  (∀ F, u.first_seen = some F → ∃ L, u.last_seen = some L ∧ F ≤ L)

/-- Auxiliary strengthening used for the preservation proof: all users
satisfy `UserInv`, and every user's `last_seen` is bounded by the tracker's
`latest_timestamp`. -/
def TrackerInv (tr : UserTracker) : Prop :=
  (∀ p ∈ tr.users, UserInv p.2) ∧
  (∀ p ∈ tr.users, ∀ L, p.2.last_seen = some L →
    ∃ M, tr.latest_timestamp = some M ∧ L ≤ M)

/-! ## Concrete scenarios -/

/-- A log entry of user `a@x` with the spec's end-to-end scenario shape. -/
def mkEntry (t : Time) (ip : String) : LogEntry :=
  { timestamp := t
    source_ip := ip
    protocol := "tcp"
    destination := "example.com"
    destination_port := 443
    action := "DIRECT"
    email := "a@x" }

/-- The spec's default configuration (§4.4, §8): `CONCURRENT_WINDOW=2`,
`TRIGGER_PERIOD=30`, `TRIGGER_COUNT=5`, `BANLIST_THRESHOLD=300`. -/
def cfgD : ServerConfig :=
  { concurrent_window := 2
    trigger_period := 30
    trigger_count := 5
    banlist_threshold := 300
    data_retention := 300
    notification_interval := 300
    subnet_grouping := false
    whitelist_emails := []
    api_token := "secret"
    has_database := true
    has_telegram := true }

/-- A loaded panel cache configuring `limit = 2` for user `a@x`. -/
def panelD : PanelState :=
  { users := [("a@x", 2)], loaded := true }

/-- One over-limit burst: three distinct IPs at the same timestamp. -/
def burst (t : Time) : List LogEntry :=
  [mkEntry t "10.0.0.1", mkEntry t "10.0.0.2", mkEntry t "10.0.0.3"]

/-- Five over-limit bursts at t = 0, 5, 10, 15, 20 (spec §8 scenario 3):
the fifth burst promotes `a@x` into the violator set. -/
def burstEntries : List LogEntry :=
  burst 0 ++ burst 5 ++ burst 10 ++ burst 15 ++ burst 20

/-- Feed a list of entries from one node through `_on_entry`. -/
def runEntriesSys (cfg : ServerConfig) (panel : PanelState) (node : String)
    (s : SystemState) (es : List LogEntry) : SystemState :=
  es.foldl (fun s e => entry_step cfg panel s e node) s

/-- The system state after the five bursts: `a@x` is a violator with
`violator_ips = {10.0.0.1, 10.0.0.2, 10.0.0.3}`. -/
def sysAfterBursts : SystemState :=
  runEntriesSys cfgD panelD "node1" (initState cfgD) burstEntries

/-- `sysAfterBursts` followed by a single in-limit entry at t = 100: the
logical clock advances far past every trigger while `a@x` stays a violator. -/
def sysStale : SystemState :=
  entry_step cfgD panelD sysAfterBursts (mkEntry 100 "10.0.0.1") "node1"

/-- `sysAfterBursts` followed by a single in-limit entry from a brand-new IP
at t = 100: the recent-IP window now contains an IP that was never unioned
into `violator_ips`. -/
def sysNewIp : SystemState :=
  entry_step cfgD panelD sysAfterBursts (mkEntry 100 "10.0.0.9") "node1"

/-- A small configuration with `TRIGGER_COUNT = 1` for compact witnesses. -/
def cfgW : ServerConfig :=
  { concurrent_window := 2
    trigger_period := 30
    trigger_count := 1
    banlist_threshold := 300
    data_retention := 300
    notification_interval := 300
    subnet_grouping := false
    whitelist_emails := []
    api_token := "secret"
    has_database := true
    has_telegram := true }

/-- A loaded panel cache configuring `limit = 1` for user `a@x`. -/
def panelW : PanelState :=
  { users := [("a@x", 1)], loaded := true }

/-- A user currently seen from two IPs at t = 0. -/
def userW : UserInfo :=
  { email := "a@x"
    ip_stats := [("1.1.1.1", ⟨0, 1⟩), ("2.2.2.2", ⟨0, 1⟩)]
    request_count := 2
    blocked_count := 0
    last_seen := some 0
    first_seen := some 0
    recent_requests := [] }

/-- A tracker holding exactly `userW`. -/
def trackerW : UserTracker :=
  { users := [("a@x", userW)]
    total_requests := 2
    total_blocked := 0
    window_seconds := 2
    max_age_seconds := 300
    latest_timestamp := some 0 }

/-- Detection state in which `a@x` is a violator whose single trigger (t = 0)
has expired by `now = 100`. -/
def stDemote : DetectState :=
  { user_triggers := [("a@x", [0])]
    violator_first_seen := [("a@x", 0)]
    violator_ips := [("a@x", {"1.1.1.1"})]
    confirmed_violators := []
    user_limits := [("a@x", 1)]
    current_violators := ["a@x"]
    last_notification := [] }

/-- Detection state in which `a@x` is a violator with one fresh trigger
(t = 95) at `now = 100`. -/
def stSurvive : DetectState :=
  { user_triggers := [("a@x", [95])]
    violator_first_seen := [("a@x", 95)]
    violator_ips := [("a@x", {"1.1.1.1"})]
    confirmed_violators := []
    user_limits := [("a@x", 1)]
    current_violators := ["a@x"]
    last_notification := [] }

/-- Two entries of the same user and IP processed out of timestamp order:
t = 10 first, then t = 5. -/
def outOfOrderPairs : List (LogEntry × String) :=
  [(mkEntry 10 "1.1.1.1", "node1"), (mkEntry 5 "1.1.1.1", "node1")]

/-- The same two out-of-order entries as tracker operations. -/
def outOfOrderOps : List TrackerOp :=
  [TrackerOp.entry (mkEntry 10 "1.1.1.1") "node1",
   TrackerOp.entry (mkEntry 5 "1.1.1.1") "node1"]

/-- An empty tracker with the spec's default windows. -/
def trackerD : UserTracker := UserTracker.init 2 300

/-- In-order entries of one user and IP for witnesses: t = 0 then t = 5. -/
def inOrderPairs : List (LogEntry × String) :=
  [(mkEntry 0 "1.1.1.1", "node1"), (mkEntry 5 "1.1.1.1", "node1")]

/-- In-order operations including a cleanup, for the C6 witness. -/
def inOrderOps : List TrackerOp :=
  [TrackerOp.entry (mkEntry 0 "1.1.1.1") "node1",
   TrackerOp.cleanup,
   TrackerOp.entry (mkEntry 5 "1.1.1.1") "node1"]

/-- A user with one fresh and one stale IP for the C7 witness. -/
def c7User : UserInfo :=
  { email := "a@x"
    ip_stats := [("1.1.1.1", ⟨100, 3⟩), ("2.2.2.2", ⟨50, 1⟩)]
    request_count := 4
    blocked_count := 0
    last_seen := some 100
    first_seen := some 50
    recent_requests := [] }

/-- Detection state whose last notification for `a@x` was at t = 0, for the
C8 witness. -/
def stNotified : DetectState :=
  { DetectState.init with last_notification := [("a@x", 0)] }

/-- A request with a wrong bearer token, for the C9 witness. -/
def reqWrong : ApiRequest :=
  { auth_header := "Bearer wrong", query_token := "" }

/-- A panel cache that has never completed a load. -/
def panelNotLoaded : PanelState :=
  { users := [], loaded := false }

/-- After a demotion of `email` during a sweep at real time `now`: the email
is out of the violator set, its `violator_first_seen` and `violator_ips`
entries are gone, and its trigger list is pruned below `TRIGGER_COUNT`. -/
def DemotedInv (cfg : ServerConfig) (now : Time) (email : String) (st : DetectState) : Prop :=
  email ∉ st.current_violators ∧
  mfind st.violator_first_seen email = none ∧
  mfind st.violator_ips email = none ∧
  ∃ F, mfind st.user_triggers email = some F ∧
    F.length < cfg.trigger_count ∧ ∀ x ∈ F, now - cfg.trigger_period ≤ x

/-- A violator surviving a sweep at real time `now`: still in the violator
set, with a pruned trigger list of length at least `TRIGGER_COUNT` whose
entries all lie within `TRIGGER_PERIOD` of `now`. -/
def SurvivorInv (cfg : ServerConfig) (now : Time) (email : String) (st : DetectState) : Prop :=
  email ∈ st.current_violators ∧
  ∃ F, mfind st.user_triggers email = some F ∧
    cfg.trigger_count ≤ F.length ∧ ∀ x ∈ F, now - cfg.trigger_period ≤ x

/-! # Theorems -/

section MapLemmas

variable {α : Type}

@[simp]
theorem mfind_nil (k : String) : mfind ([] : List (String × α)) k = none := rfl

@[simp]
theorem mfind_minsert_self (m : List (String × α)) (k : String) (v : α) :
    mfind (minsert m k v) k = some v := by
  induction m with
  | nil => simp [minsert, mfind]
  | cons p rest ih =>
    obtain ⟨k', v'⟩ := p
    by_cases h : k' = k
    · simp [minsert, h, mfind]
    · simp [minsert, h, mfind, ih]

theorem mfind_minsert_ne (m : List (String × α)) {k k' : String} (v : α) (h : k ≠ k') :
    mfind (minsert m k v) k' = mfind m k' := by
  induction m with
  | nil => simp [minsert, mfind, h]
  | cons p rest ih =>
    obtain ⟨k₀, v₀⟩ := p
    by_cases h0 : k₀ = k
    · subst h0
      simp [minsert, mfind, h]
    · simp [minsert, h0, mfind, ih]

@[simp]
theorem mfind_merase_self (m : List (String × α)) (k : String) :
    mfind (merase m k) k = none := by
  induction m with
  | nil => rfl
  | cons p rest ih =>
    obtain ⟨k₀, v₀⟩ := p
    by_cases h0 : k₀ = k
    · simp [merase, h0] at ih ⊢
      exact ih
    · simp [merase, h0, mfind] at ih ⊢
      exact ih

theorem mfind_merase_ne (m : List (String × α)) {k k' : String} (h : k ≠ k') :
    mfind (merase m k) k' = mfind m k' := by
  induction m with
  | nil => rfl
  | cons p rest ih =>
    obtain ⟨k₀, v₀⟩ := p
    by_cases h0 : k₀ = k
    · subst h0
      simpa [merase, mfind, h] using ih
    · by_cases h1 : k₀ = k'
      · subst h1
        simp [merase, mfind, h0]
      · simpa [merase, mfind, h0, h1] using ih

@[simp]
theorem mem_sadd_self (l : List String) (x : String) : x ∈ sadd l x := by
  unfold sadd
  by_cases h : x ∈ l <;> simp [h]

theorem mem_sadd_iff (l : List String) (x y : String) :
    y ∈ sadd l x ↔ y ∈ l ∨ y = x := by
  unfold sadd
  by_cases h : x ∈ l
  · simp only [if_pos h]
    constructor
    · exact Or.inl
    · rintro (hy | rfl)
      · exact hy
      · exact h
  · simp [h]

@[simp]
theorem not_mem_sdiscard_self (l : List String) (x : String) : x ∉ sdiscard l x := by
  unfold sdiscard
  simp

theorem mem_sdiscard_of_ne {l : List String} {x y : String} (h : y ≠ x) :
    y ∈ sdiscard l x ↔ y ∈ l := by
  unfold sdiscard
  simp [h]
end MapLemmas

/-! ## C7 — `get_recent_ips` is exact -/

/-- **C7.** For every user state and every `window_s` and `min_requests`,
`recent_ips(window_s, min_requests)` returns exactly the set of IPs in
`ip_stats` whose `last_seen ≥ user.last_seen − window_s` and whose
`request_count ≥ min_requests`; the cutoff is computed from the user's own
`last_seen` (the statement mentions no other clock), not from real time. -/
theorem c7_recent_ips_exact (u : UserInfo) (window_s : Int) (min_requests : Nat)
    (L : Time) (hL : u.last_seen = some L) :
    ∀ ip, ip ∈ u.get_recent_ips window_s min_requests ↔
      ∃ p ∈ u.ip_stats, p.1 = ip ∧ L - window_s ≤ p.2.last_seen ∧
        min_requests ≤ p.2.request_count := by
  intro ip
  unfold UserInfo.get_recent_ips
  rw [hL]
  simp only [List.mem_toFinset, List.mem_map, List.mem_filter, Bool.and_eq_true,
    decide_eq_true_eq]
  constructor
  · rintro ⟨p, ⟨hp, h1, h2⟩, rfl⟩
    exact ⟨p, hp, rfl, h1, h2⟩
  · rintro ⟨p, hp, rfl, h1, h2⟩
    exact ⟨p, ⟨hp, h1, h2⟩, rfl⟩

/-- Witness for C7 at `c7User`, `window_s = 30`, `min_requests = 2`. -/
theorem c7_recent_ips_exact_witness :
    c7User.last_seen = some 100 ∧
    ∀ ip, ip ∈ c7User.get_recent_ips 30 2 ↔
      ∃ p ∈ c7User.ip_stats, p.1 = ip ∧ (100 : Int) - 30 ≤ p.2.last_seen ∧
        2 ≤ p.2.request_count :=
  ⟨rfl, c7_recent_ips_exact c7User 30 2 100 rfl⟩

/-! ## C9 — auth middleware rejects bad tokens -/

/-- **C9.** For every HTTP request to the query API, if the request carries
no token or a token different from the configured (non-empty) API token, the
response is status 401 with body `{"error": "Unauthorized"}` and the wrapped
handler is not invoked. -/
theorem c9_auth_rejects (api_token : String) (r : ApiRequest)
    (htok : api_token ≠ "")
    (hbad : request_token r = "" ∨ request_token r ≠ api_token) :
    auth_middleware api_token r =
      AuthResult.unauthorized 401 "\x7b\"error\": \"Unauthorized\"\x7d" ∧
    auth_middleware api_token r ≠ AuthResult.handled := by
  have hne : request_token r ≠ api_token := by
    rcases hbad with h | h
    · rw [h]
      exact fun he => htok he.symm
    · exact h
  unfold auth_middleware
  simp [htok, hne]

/-- Witness for C9: a wrong bearer token against token `secret`. -/
theorem c9_auth_rejects_witness :
    ("secret" : String) ≠ "" ∧
    (request_token reqWrong = "" ∨ request_token reqWrong ≠ "secret") ∧
    (auth_middleware "secret" reqWrong =
        AuthResult.unauthorized 401 "\x7b\"error\": \"Unauthorized\"\x7d" ∧
      auth_middleware "secret" reqWrong ≠ AuthResult.handled) :=
  ⟨by decide, by decide, c9_auth_rejects "secret" reqWrong (by decide) (by decide)⟩

/-! ## C10 — sweep is a no-op before the first panel load -/

/-- **C10.** Whenever the user-limit directory has never completed a load
(`is_loaded` is false), a periodic limit-check sweep returns immediately and
leaves the entire detection state unchanged — no demotion, no pruning or
deletion of any trigger list — and produces no ban or notification event,
for every email. -/
theorem c10_sweep_noop_when_not_loaded (cfg : ServerConfig) (panel : PanelState)
    (now : Time) (tracker : UserTracker) (active_ban notif_ok : String → Bool)
    (st : DetectState) (h : panel.is_loaded = false) :
    check_limits cfg panel now tracker active_ban notif_ok st = (st, []) := by
  unfold check_limits
  simp [h]

/-- Witness for C10 at a never-loaded panel. -/
theorem c10_sweep_noop_witness :
    panelNotLoaded.is_loaded = false ∧
    check_limits cfgD panelNotLoaded 0 trackerD (fun _ => true) (fun _ => true)
      DetectState.init = (DetectState.init, []) :=
  ⟨rfl, c10_sweep_noop_when_not_loaded cfgD panelNotLoaded 0 trackerD
    (fun _ => true) (fun _ => true) DetectState.init rfl⟩

/-! ## C8 — ban escalation notification policy -/

/-- **C8.** On ban escalation with the database and notifier modules
present: when an active ban already exists, a `continues` notification is
emitted iff `now − last_notification_at ≥ NOTIFICATION_INTERVAL`; on
creating a new ban, a `new` notification is emitted unconditionally; and in
both branches `last_notification_at` is updated only when the notification
send succeeds, never on a notifier failure. -/
theorem c8_notification_policy (cfg : ServerConfig) (now : Time)
    (active_ban notif_ok : Bool) (st : DetectState) (email : String)
    (hdb : cfg.has_database = true) (htg : cfg.has_telegram = true) :
    (∀ l, active_ban = true → mfind st.last_notification email = some l →
      (Event.notifContinues email ∈ (add_to_banlist cfg now active_ban notif_ok st email).2 ↔
        cfg.notification_interval ≤ now - l)) ∧
    (active_ban = false →
      Event.notifNew email ∈ (add_to_banlist cfg now active_ban notif_ok st email).2) ∧
    (notif_ok = false →
      mfind (add_to_banlist cfg now active_ban notif_ok st email).1.last_notification email =
        mfind st.last_notification email) := by
  refine ⟨?_, ?_, ?_⟩
  · intro l hab hl
    subst hab
    unfold add_to_banlist
    simp only [hdb, htg, if_true, hl]
    by_cases hg : cfg.notification_interval ≤ now - l
    · cases notif_ok <;> simp [hg]
    · simp [hg]
  · intro hab
    subst hab
    unfold add_to_banlist
    cases notif_ok <;> simp [hdb, htg]
  · intro hok
    subst hok
    unfold add_to_banlist
    cases active_ban
    · simp [hdb, htg]
    · simp only [hdb, htg, if_true]
      split
      · rfl
      · rfl

/-- Witness for C8: an existing active ban, last notification at t = 0,
`now = 400`, with a failing notifier. -/
theorem c8_notification_policy_witness :
    cfgW.has_database = true ∧ cfgW.has_telegram = true ∧
    ((∀ l, true = true → mfind stNotified.last_notification "a@x" = some l →
      (Event.notifContinues "a@x" ∈ (add_to_banlist cfgW 400 true false stNotified "a@x").2 ↔
        cfgW.notification_interval ≤ 400 - l)) ∧
    (true = false →
      Event.notifNew "a@x" ∈ (add_to_banlist cfgW 400 true false stNotified "a@x").2) ∧
    (false = false →
      mfind (add_to_banlist cfgW 400 true false stNotified "a@x").1.last_notification "a@x" =
        mfind stNotified.last_notification "a@x")) :=
  ⟨rfl, rfl, c8_notification_policy cfgW 400 true false stNotified "a@x" rfl rfl⟩

/-! ## The over-limit branch of `_check_concurrent_ips` -/

/-- Helper: on an over-limit evaluation, the trigger list is replaced by the
appended-and-pruned list; if the pruned list reaches `TRIGGER_COUNT` the
email is (or stays) a violator, `violator_first_seen` is set to `t` exactly
when the email was not already a violator, and the current window's IPs are
unioned into `violator_ips` (starting from the empty set for a fresh
violator); below `TRIGGER_COUNT`, the violator sub-state is untouched. -/
theorem over_limit_facts (cfg : ServerConfig) (panel : PanelState) (st : DetectState)
    (user : UserInfo) (t : Time) {L : Int}
    (hw : user.email ∉ cfg.whitelist_emails)
    (hl : panel.get_limit user.email = some L)
    (hl0 : ¬ L = 0)
    (hover : L < (engine_ip_count cfg (user.get_recent_ips cfg.concurrent_window 1) : Int)) :
    mfind (check_concurrent_ips cfg panel st user t).user_triggers user.email =
      some (pruned_triggers cfg st user.email t) ∧
    (cfg.trigger_count ≤ (pruned_triggers cfg st user.email t).length →
      user.email ∈ (check_concurrent_ips cfg panel st user t).current_violators ∧
      mfind (check_concurrent_ips cfg panel st user t).violator_first_seen user.email =
        (if user.email ∈ st.current_violators then mfind st.violator_first_seen user.email
         else some t) ∧
      mfind (check_concurrent_ips cfg panel st user t).violator_ips user.email =
        some ((if user.email ∈ st.current_violators then (mfind st.violator_ips user.email).getD ∅
               else ∅) ∪ user.get_recent_ips cfg.concurrent_window 1)) ∧
    (¬ cfg.trigger_count ≤ (pruned_triggers cfg st user.email t).length →
      (check_concurrent_ips cfg panel st user t).current_violators = st.current_violators ∧
      mfind (check_concurrent_ips cfg panel st user t).violator_first_seen user.email =
        mfind st.violator_first_seen user.email ∧
      mfind (check_concurrent_ips cfg panel st user t).violator_ips user.email =
        mfind st.violator_ips user.email) := by
  unfold check_concurrent_ips
  rw [if_neg hw, hl]
  dsimp only
  rw [if_neg hl0, if_pos hover]
  by_cases hlen : cfg.trigger_count ≤ (pruned_triggers cfg st user.email t).length
  · rw [if_pos hlen]
    by_cases hv : user.email ∈ st.current_violators
    · rw [if_pos hv]
      refine ⟨by simp [mfind_minsert_self], fun _ => ⟨?_, ?_, ?_⟩, fun h => absurd hlen h⟩
      · exact (mem_sadd_iff _ _ _).2 (Or.inl hv)
      · simp [hv]
      · simp [hv, mfind_minsert_self]
    · rw [if_neg hv]
      refine ⟨by simp [mfind_minsert_self], fun _ => ⟨?_, ?_, ?_⟩, fun h => absurd hlen h⟩
      · exact (mem_sadd_iff _ _ _).2 (Or.inr rfl)
      · simp [hv, mfind_minsert_self]
      · simp [hv, mfind_minsert_self]
  · rw [if_neg hlen]
    refine ⟨by simp [mfind_minsert_self], fun h => absurd h hlen, fun _ => ⟨rfl, rfl, rfl⟩⟩

/-! ## C1 — over-limit entry appends a trigger and promotes -/

/-- **C1.** For every entry evaluation in which a non-whitelisted user with a
configured positive limit has a concurrent-IP count exceeding that limit:
the entry's timestamp `t` is appended to the user's trigger list and the
list is pruned to timestamps `≥ t − TRIGGER_PERIOD`; and if the pruned list
then has length `≥ TRIGGER_COUNT` while the email is not yet in the violator
set, the email is added to the violator set with `violator_first_seen = t`
and `violator_ips` reset to the empty set before the current window's IPs
are unioned in (so it ends up exactly the current window's IP set). -/
theorem c1_over_limit_entry (cfg : ServerConfig) (panel : PanelState) (st : DetectState)
    (user : UserInfo) (t : Time) {L : Int}
    (hw : user.email ∉ cfg.whitelist_emails)
    (hl : panel.get_limit user.email = some L)
    (hpos : 0 < L)
    (hover : L < (engine_ip_count cfg (user.get_recent_ips cfg.concurrent_window 1) : Int)) :
    mfind (check_concurrent_ips cfg panel st user t).user_triggers user.email =
      some ((((mfind st.user_triggers user.email).getD []) ++ [t]).filter
        (fun x => decide (t - cfg.trigger_period ≤ x))) ∧
    (cfg.trigger_count ≤ (pruned_triggers cfg st user.email t).length →
      user.email ∉ st.current_violators →
      user.email ∈ (check_concurrent_ips cfg panel st user t).current_violators ∧
      mfind (check_concurrent_ips cfg panel st user t).violator_first_seen user.email = some t ∧
      mfind (check_concurrent_ips cfg panel st user t).violator_ips user.email =
        some (user.get_recent_ips cfg.concurrent_window 1)) := by
  obtain ⟨h1, h2, _⟩ :=
    over_limit_facts cfg panel st user t hw hl (by omega) hover
  refine ⟨h1, fun hlen hv => ?_⟩
  obtain ⟨hmem, hfs, hips⟩ := h2 hlen
  refine ⟨hmem, ?_, ?_⟩
  · rwa [if_neg hv] at hfs
  · rwa [if_neg hv, Finset.empty_union] at hips

/-- Witness for C1: `userW` seen from two IPs against limit 1 with
`TRIGGER_COUNT = 1` promotes immediately. -/
theorem c1_over_limit_entry_witness :
    (userW.email ∉ cfgW.whitelist_emails) ∧
    panelW.get_limit userW.email = some 1 ∧ (0 : Int) < 1 ∧
    (1 : Int) < (engine_ip_count cfgW (userW.get_recent_ips cfgW.concurrent_window 1) : Int) ∧
    (mfind (check_concurrent_ips cfgW panelW DetectState.init userW 0).user_triggers userW.email =
      some ((((mfind DetectState.init.user_triggers userW.email).getD []) ++ [0]).filter
        (fun x => decide ((0 : Int) - cfgW.trigger_period ≤ x))) ∧
    (cfgW.trigger_count ≤ (pruned_triggers cfgW DetectState.init userW.email 0).length →
      userW.email ∉ DetectState.init.current_violators →
      userW.email ∈ (check_concurrent_ips cfgW panelW DetectState.init userW 0).current_violators ∧
      mfind (check_concurrent_ips cfgW panelW DetectState.init userW 0).violator_first_seen
        userW.email = some 0 ∧
      mfind (check_concurrent_ips cfgW panelW DetectState.init userW 0).violator_ips userW.email =
        some (userW.get_recent_ips cfgW.concurrent_window 1))) :=
  ⟨by decide, by decide, by decide, by decide,
   @c1_over_limit_entry cfgW panelW DetectState.init userW 0 1 (by decide) (by decide)
     (by decide) (by decide)⟩

/-! ## Frame lemmas for the sweep -/

/-- `_add_to_banlist` only writes `confirmed_violators` and
`last_notification`: the trigger table and the violator sub-state are
untouched. -/
theorem add_to_banlist_frame (cfg : ServerConfig) (now : Time) (ab ok : Bool)
    (st : DetectState) (email : String) :
    (add_to_banlist cfg now ab ok st email).1.user_triggers = st.user_triggers ∧
    (add_to_banlist cfg now ab ok st email).1.current_violators = st.current_violators ∧
    (add_to_banlist cfg now ab ok st email).1.violator_first_seen = st.violator_first_seen ∧
    (add_to_banlist cfg now ab ok st email).1.violator_ips = st.violator_ips := by
  unfold add_to_banlist
  cases cfg.has_database
  · exact ⟨rfl, rfl, rfl, rfl⟩
  · cases ab
    · cases cfg.has_telegram
      · exact ⟨rfl, rfl, rfl, rfl⟩
      · cases ok
        · exact ⟨rfl, rfl, rfl, rfl⟩
        · exact ⟨rfl, rfl, rfl, rfl⟩
    · cases cfg.has_telegram
      · exact ⟨rfl, rfl, rfl, rfl⟩
      · simp only [if_true]
        split
        · cases ok
          · exact ⟨rfl, rfl, rfl, rfl⟩
          · exact ⟨rfl, rfl, rfl, rfl⟩
        · exact ⟨rfl, rfl, rfl, rfl⟩

/-- `ban_check` only writes `confirmed_violators` and `last_notification`. -/
theorem ban_check_frame (cfg : ServerConfig) (now : Time) (ab ok : Bool)
    (st : DetectState) (email : String) :
    (ban_check cfg now ab ok st email).1.user_triggers = st.user_triggers ∧
    (ban_check cfg now ab ok st email).1.current_violators = st.current_violators ∧
    (ban_check cfg now ab ok st email).1.violator_first_seen = st.violator_first_seen ∧
    (ban_check cfg now ab ok st email).1.violator_ips = st.violator_ips := by
  unfold ban_check
  cases hfs : mfind st.violator_first_seen email
  · exact ⟨rfl, rfl, rfl, rfl⟩
  · dsimp only
    split
    · exact add_to_banlist_frame cfg now ab ok st email
    · exact ⟨rfl, rfl, rfl, rfl⟩

/-- One violator-loop iteration on `email'` does not change the observations
of a different `email`. -/
theorem clu_frame (cfg : ServerConfig) (now : Time) (tracker : UserTracker)
    (ab ok : Bool) (st : DetectState) {email email' : String} (hne : email' ≠ email) :
    mfind (check_limits_user cfg now tracker ab ok st email').1.user_triggers email =
      mfind st.user_triggers email ∧
    (email ∈ (check_limits_user cfg now tracker ab ok st email').1.current_violators ↔
      email ∈ st.current_violators) ∧
    mfind (check_limits_user cfg now tracker ab ok st email').1.violator_first_seen email =
      mfind st.violator_first_seen email ∧
    mfind (check_limits_user cfg now tracker ab ok st email').1.violator_ips email =
      mfind st.violator_ips email := by
  unfold check_limits_user
  cases hg : tracker.get_user email'
  · exact ⟨rfl, Iff.rfl, rfl, rfl⟩
  · dsimp only
    cases hts : mfind st.user_triggers email' with
    | none =>
      obtain ⟨h1, h2, h3, h4⟩ := ban_check_frame cfg now ab ok st email'
      exact ⟨by rw [h1], by rw [h2], by rw [h3], by rw [h4]⟩
    | some ts =>
      dsimp only
      by_cases hlt :
          (ts.filter (fun x => decide (now - cfg.trigger_period ≤ x))).length <
            cfg.trigger_count
      · rw [if_pos hlt]
        exact ⟨mfind_minsert_ne _ _ hne, mem_sdiscard_of_ne (Ne.symm hne),
          mfind_merase_ne _ hne, mfind_merase_ne _ hne⟩
      · rw [if_neg hlt]
        obtain ⟨h1, h2, h3, h4⟩ := ban_check_frame cfg now ab ok
          { st with user_triggers := minsert st.user_triggers email' (ts.filter (fun x => decide (now - cfg.trigger_period ≤ x))) } email'
        refine ⟨?_, ?_, ?_, ?_⟩
        · rw [h1]
          exact mfind_minsert_ne _ _ hne
        · rw [h2]
        · rw [h3]
        · rw [h4]

/-- The violator-loop iteration on `email` itself: with the user state
present and a trigger entry `ts`, the entry is replaced by its pruned
version; if it falls below `TRIGGER_COUNT` the email is demoted (removed
from the violator set, `violator_first_seen` and `violator_ips` deleted),
otherwise the violator sub-state is untouched. -/
theorem clu_self (cfg : ServerConfig) (now : Time) (tracker : UserTracker)
    (ab ok : Bool) (st : DetectState) (email : String) (u : UserInfo) (ts : List Time)
    (hu : tracker.get_user email = some u)
    (hts : mfind st.user_triggers email = some ts) :
    ((ts.filter (fun x => decide (now - cfg.trigger_period ≤ x))).length < cfg.trigger_count →
      email ∉ (check_limits_user cfg now tracker ab ok st email).1.current_violators ∧
      mfind (check_limits_user cfg now tracker ab ok st email).1.violator_first_seen email = none ∧
      mfind (check_limits_user cfg now tracker ab ok st email).1.violator_ips email = none ∧
      mfind (check_limits_user cfg now tracker ab ok st email).1.user_triggers email =
        some (ts.filter (fun x => decide (now - cfg.trigger_period ≤ x)))) ∧
    (¬ (ts.filter (fun x => decide (now - cfg.trigger_period ≤ x))).length < cfg.trigger_count →
      mfind (check_limits_user cfg now tracker ab ok st email).1.user_triggers email =
        some (ts.filter (fun x => decide (now - cfg.trigger_period ≤ x))) ∧
      (email ∈ (check_limits_user cfg now tracker ab ok st email).1.current_violators ↔
        email ∈ st.current_violators) ∧
      mfind (check_limits_user cfg now tracker ab ok st email).1.violator_first_seen email =
        mfind st.violator_first_seen email ∧
      mfind (check_limits_user cfg now tracker ab ok st email).1.violator_ips email =
        mfind st.violator_ips email) := by
  unfold check_limits_user
  rw [hu]
  dsimp only
  rw [hts]
  dsimp only
  constructor
  · intro hlt
    rw [if_pos hlt]
    exact ⟨not_mem_sdiscard_self _ _, mfind_merase_self _ _, mfind_merase_self _ _,
      mfind_minsert_self _ _ _⟩
  · intro hlt
    rw [if_neg hlt]
    obtain ⟨b1, b2, b3, b4⟩ := ban_check_frame cfg now ab ok
      { st with user_triggers := minsert st.user_triggers email (ts.filter (fun x => decide (now - cfg.trigger_period ≤ x))) } email
    refine ⟨?_, ?_, ?_, ?_⟩
    · rw [b1]
      exact mfind_minsert_self _ _ _
    · rw [b2]
    · rw [b3]
    · rw [b4]

/-- The state component of the event-accumulating violator loop equals the
plain fold of `sweepStep`. -/
theorem sweep_fold_fst (cfg : ServerConfig) (now : Time) (tracker : UserTracker)
    (ab nk : String → Bool) :
    ∀ (K : List String) (st : DetectState) (evs : List Event),
      (K.foldl (fun (acc : DetectState × List Event) email =>
          let r := check_limits_user cfg now tracker (ab email) (nk email) acc.1 email
          (r.1, acc.2 ++ r.2)) (st, evs)).1 =
        K.foldl (sweepStep cfg now tracker ab nk) st := by
  intro K
  induction K with
  | nil => intro st evs; rfl
  | cons e rest ih => intro st evs; exact ih _ _

/-- The state after a sweep with the panel loaded: the violator loop
followed by the orphan-trigger pruning loop. -/
theorem check_limits_fst (cfg : ServerConfig) (panel : PanelState) (now : Time)
    (tracker : UserTracker) (ab nk : String → Bool) (st : DetectState)
    (hload : panel.is_loaded = true) :
    (check_limits cfg panel now tracker ab nk st).1 =
      (mkeys (st.current_violators.foldl (sweepStep cfg now tracker ab nk) st).user_triggers).foldl
        (prune_inactive cfg now)
        (st.current_violators.foldl (sweepStep cfg now tracker ab nk) st) := by
  unfold check_limits
  rw [hload]
  rw [if_pos rfl]
  dsimp only
  rw [sweep_fold_fst]

/-- The orphan-trigger pruning loop only writes `user_triggers`. -/
theorem prune_inactive_fields (cfg : ServerConfig) (now : Time) (st : DetectState)
    (e : String) :
    (prune_inactive cfg now st e).current_violators = st.current_violators ∧
    (prune_inactive cfg now st e).violator_first_seen = st.violator_first_seen ∧
    (prune_inactive cfg now st e).violator_ips = st.violator_ips := by
  unfold prune_inactive
  split
  · exact ⟨rfl, rfl, rfl⟩
  · cases hts : mfind st.user_triggers e
    · exact ⟨rfl, rfl, rfl⟩
    · dsimp only
      split
      · exact ⟨rfl, rfl, rfl⟩
      · exact ⟨rfl, rfl, rfl⟩

/-- Fold version of `prune_inactive_fields`. -/
theorem prune_fold_fields (cfg : ServerConfig) (now : Time) :
    ∀ (K : List String) (st : DetectState),
      (K.foldl (prune_inactive cfg now) st).current_violators = st.current_violators ∧
      (K.foldl (prune_inactive cfg now) st).violator_first_seen = st.violator_first_seen ∧
      (K.foldl (prune_inactive cfg now) st).violator_ips = st.violator_ips := by
  intro K
  induction K with
  | nil => intro st; exact ⟨rfl, rfl, rfl⟩
  | cons e rest ih =>
    intro st
    obtain ⟨h1, h2, h3⟩ := ih (prune_inactive cfg now st e)
    obtain ⟨g1, g2, g3⟩ := prune_inactive_fields cfg now st e
    exact ⟨h1.trans g1, h2.trans g2, h3.trans g3⟩

/-- The pruning loop never touches the trigger entry of a current
violator. -/
theorem prune_fold_triggers_violator (cfg : ServerConfig) (now : Time) (email : String) :
    ∀ (K : List String) (st : DetectState), email ∈ st.current_violators →
      mfind (K.foldl (prune_inactive cfg now) st).user_triggers email =
        mfind st.user_triggers email := by
  intro K
  induction K with
  | nil => intro st _; rfl
  | cons e rest ih =>
    intro st hmem
    have hcv := (prune_inactive_fields cfg now st e).1
    have step : mfind (prune_inactive cfg now st e).user_triggers email =
        mfind st.user_triggers email := by
      unfold prune_inactive
      by_cases he : e ∈ st.current_violators
      · rw [if_pos he]
      · rw [if_neg he]
        have hne : e ≠ email := fun h => he (h ▸ hmem)
        cases hts : mfind st.user_triggers e
        · rfl
        · dsimp only
          split
          · exact mfind_merase_ne _ hne
          · exact mfind_minsert_ne _ _ hne
    have htail := ih (prune_inactive cfg now st e) (by rw [hcv]; exact hmem)
    rw [List.foldl_cons, htail, step]

/-- `DemotedInv` is preserved by any further violator-loop iteration. -/
theorem demoted_inv_step (cfg : ServerConfig) (now : Time) (tracker : UserTracker)
    (ab ok : Bool) (email e : String) (st : DetectState)
    (hinv : DemotedInv cfg now email st) :
    DemotedInv cfg now email (check_limits_user cfg now tracker ab ok st e).1 := by
  obtain ⟨hcv, hfs, hips, F, hF, hFlen, hFcut⟩ := hinv
  by_cases hne : e = email
  · subst hne
    unfold check_limits_user
    cases hg : tracker.get_user e
    · exact ⟨hcv, hfs, hips, F, hF, hFlen, hFcut⟩
    · dsimp only
      rw [hF]
      dsimp only
      have hfilt : F.filter (fun x => decide (now - cfg.trigger_period ≤ x)) = F :=
        List.filter_eq_self.mpr (fun x hx => by simpa using hFcut x hx)
      rw [hfilt, if_pos hFlen]
      exact ⟨not_mem_sdiscard_self _ _, mfind_merase_self _ _, mfind_merase_self _ _,
        F, mfind_minsert_self _ _ _, hFlen, hFcut⟩
  · obtain ⟨f1, f2, f3, f4⟩ := clu_frame cfg now tracker ab ok st hne
    exact ⟨fun h => hcv (f2.mp h), by rw [f3]; exact hfs, by rw [f4]; exact hips,
      F, by rw [f1]; exact hF, hFlen, hFcut⟩

/-- Fold version of `demoted_inv_step`. -/
theorem demoted_inv_fold (cfg : ServerConfig) (now : Time) (tracker : UserTracker)
    (ab nk : String → Bool) (email : String) :
    ∀ (K : List String) (st : DetectState), DemotedInv cfg now email st →
      DemotedInv cfg now email (K.foldl (sweepStep cfg now tracker ab nk) st) := by
  intro K
  induction K with
  | nil => intro st h; exact h
  | cons e rest ih =>
    intro st h
    exact ih _ (demoted_inv_step cfg now tracker (ab e) (nk e) email e st h)

/-- If a violator's pruned trigger list falls below `TRIGGER_COUNT`, the
violator loop demotes it, whatever else is in the work list. -/
theorem sweep_demote_main (cfg : ServerConfig) (now : Time) (tracker : UserTracker)
    (ab nk : String → Bool) (email : String) (u : UserInfo) (ts : List Time)
    (hu : tracker.get_user email = some u)
    (hlen : (ts.filter (fun x => decide (now - cfg.trigger_period ≤ x))).length <
      cfg.trigger_count) :
    ∀ (K : List String) (st : DetectState),
      mfind st.user_triggers email = some ts → email ∈ K →
      DemotedInv cfg now email (K.foldl (sweepStep cfg now tracker ab nk) st) := by
  intro K
  induction K with
  | nil => intro st _ h; exact absurd h (List.not_mem_nil _)
  | cons e rest ih =>
    intro st hts hmem
    by_cases he : e = email
    · subst he
      have hd := (clu_self cfg now tracker (ab e) (nk e) st e u ts hu hts).1 hlen
      have hinv : DemotedInv cfg now e ((check_limits_user cfg now tracker (ab e) (nk e) st e).1) := by
        obtain ⟨h1, h2, h3, h4⟩ := hd
        refine ⟨h1, h2, h3, _, h4, hlen, fun x hx => ?_⟩
        have := List.of_mem_filter hx
        simpa using this
      exact demoted_inv_fold cfg now tracker ab nk e rest _ hinv
    · obtain ⟨f1, _, _, _⟩ := clu_frame cfg now tracker (ab e) (nk e) st he
      have hmem' : email ∈ rest := by
        rcases List.mem_cons.mp hmem with h | h
        · exact absurd h.symm he
        · exact h
      exact ih _ (by unfold sweepStep; rw [f1]; exact hts) hmem'

/-- `SurvivorInv` is preserved by any further violator-loop iteration. -/
theorem survivor_inv_step (cfg : ServerConfig) (now : Time) (tracker : UserTracker)
    (ab ok : Bool) (email e : String) (st : DetectState)
    (hinv : SurvivorInv cfg now email st) :
    SurvivorInv cfg now email (check_limits_user cfg now tracker ab ok st e).1 := by
  obtain ⟨hcv, F, hF, hFlen, hFcut⟩ := hinv
  by_cases hne : e = email
  · subst hne
    unfold check_limits_user
    cases hg : tracker.get_user e
    · exact ⟨hcv, F, hF, hFlen, hFcut⟩
    · dsimp only
      rw [hF]
      dsimp only
      have hfilt : F.filter (fun x => decide (now - cfg.trigger_period ≤ x)) = F :=
        List.filter_eq_self.mpr (fun x hx => by simpa using hFcut x hx)
      rw [hfilt, if_neg (by omega : ¬ F.length < cfg.trigger_count)]
      obtain ⟨b1, b2, b3, b4⟩ := ban_check_frame cfg now ab ok
        { st with user_triggers := minsert st.user_triggers e F } e
      refine ⟨?_, F, ?_, hFlen, hFcut⟩
      · rw [b2]
        exact hcv
      · rw [b1]
        exact mfind_minsert_self _ _ _
  · obtain ⟨f1, f2, _, _⟩ := clu_frame cfg now tracker ab ok st hne
    exact ⟨f2.mpr hcv, F, by rw [f1]; exact hF, hFlen, hFcut⟩

/-- Fold version of `survivor_inv_step`. -/
theorem survivor_inv_fold (cfg : ServerConfig) (now : Time) (tracker : UserTracker)
    (ab nk : String → Bool) (email : String) :
    ∀ (K : List String) (st : DetectState), SurvivorInv cfg now email st →
      SurvivorInv cfg now email (K.foldl (sweepStep cfg now tracker ab nk) st) := by
  intro K
  induction K with
  | nil => intro st h; exact h
  | cons e rest ih =>
    intro st h
    exact ih _ (survivor_inv_step cfg now tracker (ab e) (nk e) email e st h)

/-- If a violator's pruned trigger list keeps at least `TRIGGER_COUNT`
entries, the violator loop keeps it a violator, with the pruned list
stored. -/
theorem sweep_survive_main (cfg : ServerConfig) (now : Time) (tracker : UserTracker)
    (ab nk : String → Bool) (email : String) (u : UserInfo) (ts : List Time)
    (hu : tracker.get_user email = some u)
    (hlen : ¬ (ts.filter (fun x => decide (now - cfg.trigger_period ≤ x))).length <
      cfg.trigger_count) :
    ∀ (K : List String) (st : DetectState),
      mfind st.user_triggers email = some ts → email ∈ st.current_violators → email ∈ K →
      SurvivorInv cfg now email (K.foldl (sweepStep cfg now tracker ab nk) st) := by
  intro K
  induction K with
  | nil => intro st _ _ h; exact absurd h (List.not_mem_nil _)
  | cons e rest ih =>
    intro st hts hcv hmem
    by_cases he : e = email
    · subst he
      have hs := (clu_self cfg now tracker (ab e) (nk e) st e u ts hu hts).2 hlen
      have hinv : SurvivorInv cfg now e ((check_limits_user cfg now tracker (ab e) (nk e) st e).1) := by
        obtain ⟨h1, h2, _, _⟩ := hs
        refine ⟨h2.mpr hcv, _, h1, by omega, fun x hx => ?_⟩
        have := List.of_mem_filter hx
        simpa using this
      exact survivor_inv_fold cfg now tracker ab nk e rest _ hinv
    · obtain ⟨f1, f2, _, _⟩ := clu_frame cfg now tracker (ab e) (nk e) st he
      have hmem' : email ∈ rest := by
        rcases List.mem_cons.mp hmem with h | h
        · exact absurd h.symm he
        · exact h
      exact ih _ (by unfold sweepStep; rw [f1]; exact hts) (f2.mpr hcv) hmem'

/-! ## C2 — sweep demotion clears violator sub-state -/

/-- **C2.** For every email in the violator set, when a periodic sweep (with
the directory loaded and the user state present) prunes that email's
triggers against `now − TRIGGER_PERIOD` and fewer than `TRIGGER_COUNT`
remain, the sweep removes the email from the violator set and deletes both
its `violator_first_seen` and its `violator_ips` entries; consequently, any
later entry evaluation that re-promotes the email (which can only happen
once it is out of the violator set) starts with `violator_first_seen` set to
that entry's timestamp and `violator_ips` rebuilt from the empty set, i.e.
equal to just the current window's IPs. -/
theorem c2_sweep_demotes_and_resets (cfg : ServerConfig) (panel : PanelState)
    (now : Time) (tracker : UserTracker) (ab nk : String → Bool) (st : DetectState)
    (email : String) (u : UserInfo) (ts : List Time)
    (hload : panel.is_loaded = true)
    (hmem : email ∈ st.current_violators)
    (hu : tracker.get_user email = some u)
    (hts : mfind st.user_triggers email = some ts)
    (hlen : (ts.filter (fun x => decide (now - cfg.trigger_period ≤ x))).length <
      cfg.trigger_count) :
    email ∉ (check_limits cfg panel now tracker ab nk st).1.current_violators ∧
    mfind (check_limits cfg panel now tracker ab nk st).1.violator_first_seen email = none ∧
    mfind (check_limits cfg panel now tracker ab nk st).1.violator_ips email = none ∧
    (∀ (panel2 : PanelState) (st2 : DetectState) (user2 : UserInfo) (t2 : Time) (L2 : Int),
      user2.email = email → email ∉ cfg.whitelist_emails →
      panel2.get_limit email = some L2 → ¬ L2 = 0 →
      L2 < (engine_ip_count cfg (user2.get_recent_ips cfg.concurrent_window 1) : Int) →
      email ∉ st2.current_violators →
      cfg.trigger_count ≤ (pruned_triggers cfg st2 email t2).length →
      mfind (check_concurrent_ips cfg panel2 st2 user2 t2).violator_first_seen email =
        some t2 ∧
      mfind (check_concurrent_ips cfg panel2 st2 user2 t2).violator_ips email =
        some (user2.get_recent_ips cfg.concurrent_window 1)) := by
  rw [check_limits_fst cfg panel now tracker ab nk st hload]
  obtain ⟨hcv, hfs, hips, _⟩ :=
    sweep_demote_main cfg now tracker ab nk email u ts hu hlen st.current_violators st hts hmem
  obtain ⟨p1, p2, p3⟩ := prune_fold_fields cfg now
    (mkeys (st.current_violators.foldl (sweepStep cfg now tracker ab nk) st).user_triggers)
    (st.current_violators.foldl (sweepStep cfg now tracker ab nk) st)
  refine ⟨by rw [p1]; exact hcv, by rw [p2]; exact hfs, by rw [p3]; exact hips, ?_⟩
  intro panel2 st2 user2 t2 L2 hemail hw hl hl0 hover hnv hlen2
  subst hemail
  obtain ⟨_, h2, _⟩ := over_limit_facts cfg panel2 st2 user2 t2 hw hl hl0 hover
  obtain ⟨_, hfs2, hips2⟩ := h2 hlen2
  rw [if_neg hnv] at hfs2 hips2
  rw [Finset.empty_union] at hips2
  exact ⟨hfs2, hips2⟩

/-- Witness for C2: violator `a@x` of `stDemote` has its single trigger
(t = 0) expire by `now = 100` and is demoted. -/
theorem c2_sweep_demotes_and_resets_witness :
    panelW.is_loaded = true ∧
    "a@x" ∈ stDemote.current_violators ∧
    trackerW.get_user "a@x" = some userW ∧
    mfind stDemote.user_triggers "a@x" = some [0] ∧
    (([0] : List Time).filter (fun x => decide ((100 : Int) - cfgW.trigger_period ≤ x))).length <
      cfgW.trigger_count ∧
    ("a@x" ∉ (check_limits cfgW panelW 100 trackerW (fun _ => false) (fun _ => false)
        stDemote).1.current_violators ∧
      mfind (check_limits cfgW panelW 100 trackerW (fun _ => false) (fun _ => false)
        stDemote).1.violator_first_seen "a@x" = none ∧
      mfind (check_limits cfgW panelW 100 trackerW (fun _ => false) (fun _ => false)
        stDemote).1.violator_ips "a@x" = none ∧
      (∀ (panel2 : PanelState) (st2 : DetectState) (user2 : UserInfo) (t2 : Time) (L2 : Int),
        user2.email = "a@x" → "a@x" ∉ cfgW.whitelist_emails →
        panel2.get_limit "a@x" = some L2 → ¬ L2 = 0 →
        L2 < (engine_ip_count cfgW (user2.get_recent_ips cfgW.concurrent_window 1) : Int) →
        "a@x" ∉ st2.current_violators →
        cfgW.trigger_count ≤ (pruned_triggers cfgW st2 "a@x" t2).length →
        mfind (check_concurrent_ips cfgW panel2 st2 user2 t2).violator_first_seen "a@x" =
          some t2 ∧
        mfind (check_concurrent_ips cfgW panel2 st2 user2 t2).violator_ips "a@x" =
          some (user2.get_recent_ips cfgW.concurrent_window 1))) :=
  ⟨rfl, by decide, by decide, by decide, by decide,
   c2_sweep_demotes_and_resets cfgW panelW 100 trackerW (fun _ => false) (fun _ => false)
     stDemote "a@x" userW [0] rfl (by decide) (by decide) (by decide) (by decide)⟩

/-! ## Reachability of the concrete scenarios -/

/-- Feeding any entry list through `_on_entry` preserves reachability. -/
theorem reachable_runEntriesSys (cfg : ServerConfig) (panel : PanelState) (node : String) :
    ∀ (es : List LogEntry) {s : SystemState}, Reachable cfg s →
      Reachable cfg (runEntriesSys cfg panel node s es) := by
  intro es
  induction es with
  | nil => intro s h; exact h
  | cons e rest ih => intro s h; exact ih (Reachable.entry panel e node h)

/-! ## C3 — violator trigger support -/

/-- Counterexample to **C3** as stated.  The trace: the five over-limit
bursts of `burstEntries` (three distinct IPs at each of t = 0, 5, 10, 15, 20,
against limit 2 — spec §8 scenario 3) promote `a@x` with triggers
`[0, 5, 10, 15, 20]`; one further in-limit entry (a single IP at t = 100)
then advances the most recent entry to t = 100 without touching the trigger
list or the violator set, because `_check_concurrent_ips` returns before the
trigger path when `count ≤ limit`, and demotion lives only in the periodic
sweep, which has not run.  In the resulting reachable state `sysStale`,
`a@x` is a violator yet zero of its five triggers lie within
`TRIGGER_PERIOD = 30` of t = 100.  Both the tracker's global
`latest_timestamp` and the user's own `last_seen` equal 100, so the claim is
refuted under either reading of "the most recent entry": the final two
conjuncts negate the invariant for the global-clock reading and for the
per-user reading respectively. -/
theorem c3_counterexample :
    Reachable cfgD sysStale ∧
    "a@x" ∈ sysStale.det.current_violators ∧
    sysStale.tracker.latest_timestamp = some 100 ∧
    userLastSeen sysStale.tracker "a@x" = some 100 ∧
    triggersOf sysStale.det "a@x" = [0, 5, 10, 15, 20] ∧
    ((triggersOf sysStale.det "a@x").filter
      (fun x => decide ((100 : Int) - cfgD.trigger_period ≤ x))).length = 0 ∧
    ¬ (∀ s : SystemState, Reachable cfgD s → ∀ email, email ∈ s.det.current_violators →
        ∀ T, s.tracker.latest_timestamp = some T →
          cfgD.trigger_count ≤ ((triggersOf s.det email).filter
            (fun x => decide (T - cfgD.trigger_period ≤ x))).length) ∧
    ¬ (∀ s : SystemState, Reachable cfgD s → ∀ email, email ∈ s.det.current_violators →
        ∀ T, userLastSeen s.tracker email = some T →
          cfgD.trigger_count ≤ ((triggersOf s.det email).filter
            (fun x => decide (T - cfgD.trigger_period ≤ x))).length) := by
  have hb : Reachable cfgD sysAfterBursts :=
    reachable_runEntriesSys cfgD panelD "node1" burstEntries Reachable.init
  have hr : Reachable cfgD sysStale :=
    Reachable.entry panelD (mkEntry 100 "10.0.0.1") "node1" hb
  refine ⟨hr, by decide, by decide, by decide, by decide, by decide, ?_, ?_⟩
  · intro h
    exact absurd (h sysStale hr "a@x" (by decide) 100 (by decide)) (by decide)
  · intro h
    exact absurd (h sysStale hr "a@x" (by decide) 100 (by decide)) (by decide)

/-- **C3 (amended).** The claimed property is not an invariant of all
reachable states: an in-limit entry advances the most-recent-entry clock
without any pruning or demotion (see `c3_counterexample`).  What the code
guarantees is: (a) immediately after an entry evaluation that takes the
over-limit path with a pruned trigger list of length `≥ TRIGGER_COUNT` — in
particular whenever an email enters the violator set — the email's stored
triggers number at least `TRIGGER_COUNT`, all within `TRIGGER_PERIOD` of
that entry's timestamp; and (b) after a periodic sweep with the directory
loaded, every email remaining in the violator set whose user state still
exists and which had a trigger entry keeps at least `TRIGGER_COUNT` stored
triggers, all within `TRIGGER_PERIOD` of the sweep's wall-clock time. -/
theorem c3_amended_trigger_support (cfg : ServerConfig) :
    (∀ (panel : PanelState) (st : DetectState) (user : UserInfo) (t : Time) (L : Int),
      user.email ∉ cfg.whitelist_emails →
      panel.get_limit user.email = some L → ¬ L = 0 →
      L < (engine_ip_count cfg (user.get_recent_ips cfg.concurrent_window 1) : Int) →
      cfg.trigger_count ≤ (pruned_triggers cfg st user.email t).length →
      user.email ∈ (check_concurrent_ips cfg panel st user t).current_violators ∧
      cfg.trigger_count ≤
        (triggersOf (check_concurrent_ips cfg panel st user t) user.email).length ∧
      ∀ x ∈ triggersOf (check_concurrent_ips cfg panel st user t) user.email,
        t - cfg.trigger_period ≤ x) ∧
    (∀ (panel : PanelState) (now : Time) (tracker : UserTracker) (ab nk : String → Bool)
        (st : DetectState) (email : String) (u : UserInfo) (ts : List Time),
      panel.is_loaded = true →
      email ∈ st.current_violators →
      tracker.get_user email = some u →
      mfind st.user_triggers email = some ts →
      email ∈ (check_limits cfg panel now tracker ab nk st).1.current_violators →
      cfg.trigger_count ≤
        (triggersOf (check_limits cfg panel now tracker ab nk st).1 email).length ∧
      ∀ x ∈ triggersOf (check_limits cfg panel now tracker ab nk st).1 email,
        now - cfg.trigger_period ≤ x) := by
  constructor
  · intro panel st user t L hw hl hl0 hover hlen
    obtain ⟨h1, h2, _⟩ := over_limit_facts cfg panel st user t hw hl hl0 hover
    obtain ⟨hmem, _, _⟩ := h2 hlen
    refine ⟨hmem, ?_, ?_⟩
    · unfold triggersOf
      rw [h1, Option.getD_some]
      exact hlen
    · unfold triggersOf
      rw [h1, Option.getD_some]
      intro x hx
      unfold pruned_triggers at hx
      have := List.of_mem_filter hx
      simpa using this
  · intro panel now tracker ab nk st email u ts hload hmem hu hts hsurv
    rw [check_limits_fst cfg panel now tracker ab nk st hload] at hsurv ⊢
    by_cases hlen : (ts.filter (fun x => decide (now - cfg.trigger_period ≤ x))).length <
        cfg.trigger_count
    · exfalso
      obtain ⟨hcv, _, _, _⟩ :=
        sweep_demote_main cfg now tracker ab nk email u ts hu hlen st.current_violators st hts hmem
      rw [(prune_fold_fields cfg now _ _).1] at hsurv
      exact hcv hsurv
    · obtain ⟨hcv', F, hF, hFlen, hFcut⟩ :=
        sweep_survive_main cfg now tracker ab nk email u ts hu hlen st.current_violators st
          hts hmem hmem
      have htrig := prune_fold_triggers_violator cfg now email
        (mkeys (st.current_violators.foldl (sweepStep cfg now tracker ab nk) st).user_triggers)
        (st.current_violators.foldl (sweepStep cfg now tracker ab nk) st) hcv'
      constructor
      · unfold triggersOf
        rw [htrig, hF, Option.getD_some]
        exact hFlen
      · unfold triggersOf
        rw [htrig, hF, Option.getD_some]
        exact hFcut

/-- Witness for the amended C3: part (a) at the promotion of `userW`,
part (b) at the surviving violator of `stSurvive`. -/
theorem c3_amended_trigger_support_witness :
    (userW.email ∈ (check_concurrent_ips cfgW panelW DetectState.init userW 0).current_violators ∧
      cfgW.trigger_count ≤
        (triggersOf (check_concurrent_ips cfgW panelW DetectState.init userW 0) userW.email).length ∧
      ∀ x ∈ triggersOf (check_concurrent_ips cfgW panelW DetectState.init userW 0) userW.email,
        (0 : Int) - cfgW.trigger_period ≤ x) ∧
    (cfgW.trigger_count ≤
        (triggersOf (check_limits cfgW panelW 100 trackerW (fun _ => false) (fun _ => false)
          stSurvive).1 "a@x").length ∧
      ∀ x ∈ triggersOf (check_limits cfgW panelW 100 trackerW (fun _ => false) (fun _ => false)
          stSurvive).1 "a@x",
        (100 : Int) - cfgW.trigger_period ≤ x) :=
  ⟨(c3_amended_trigger_support cfgW).1 panelW DetectState.init userW 0 1 (by decide)
     (by decide) (by decide) (by decide) (by decide),
   (c3_amended_trigger_support cfgW).2 panelW 100 trackerW (fun _ => false) (fun _ => false)
     stSurvive "a@x" userW [95] rfl (by decide) (by decide) (by decide) (by decide)⟩

/-! ## C4 — violator_ips versus the sliding window -/

/-- Counterexample to **C4** as stated: from the reachable state
`sysAfterBursts`, evaluating one in-limit entry from the brand-new IP
`10.0.0.9` leaves `a@x` in the violator set while its recent-IP window
`{10.0.0.9}` is not contained in `violator_ips = {10.0.0.1, 10.0.0.2,
10.0.0.3}` — the early return of `_check_concurrent_ips` skips the union. -/
theorem c4_counterexample :
    ¬ (∀ s : SystemState, Reachable cfgD s →
        ∀ (panel : PanelState) (e : LogEntry) (node : String) (email : String),
          email ∈ (entry_step cfgD panel s e node).det.current_violators →
          recentIpsOf (entry_step cfgD panel s e node).tracker email cfgD.concurrent_window ⊆
            violatorIpsOf (entry_step cfgD panel s e node).det email) := by
  intro h
  have hb : Reachable cfgD sysAfterBursts :=
    reachable_runEntriesSys cfgD panelD "node1" burstEntries Reachable.init
  have hc := h sysAfterBursts hb panelD (mkEntry 100 "10.0.0.9") "node1" "a@x" (by decide)
  exact absurd hc (by decide)

/-- **C4 (amended).** The superset relation does not survive every entry
evaluation: an evaluation that returns early (whitelisted, missing or zero
limit, count not above limit, or fewer than `TRIGGER_COUNT` pruned triggers)
leaves `violator_ips` unchanged while the user's recent-IP window moves on
(see `c4_counterexample`).  Immediately after an entry evaluation that
reaches the trigger path with at least `TRIGGER_COUNT` pruned triggers, the
evaluated email is in the violator set and `violator_ips[email]` is a
superset of that user's `recent_ips(CONCURRENT_WINDOW)`. -/
theorem c4_amended_superset_on_trigger (cfg : ServerConfig) (panel : PanelState)
    (st : DetectState) (user : UserInfo) (t : Time) {L : Int}
    (hw : user.email ∉ cfg.whitelist_emails)
    (hl : panel.get_limit user.email = some L)
    (hl0 : ¬ L = 0)
    (hover : L < (engine_ip_count cfg (user.get_recent_ips cfg.concurrent_window 1) : Int))
    (hlen : cfg.trigger_count ≤ (pruned_triggers cfg st user.email t).length) :
    user.email ∈ (check_concurrent_ips cfg panel st user t).current_violators ∧
    user.get_recent_ips cfg.concurrent_window 1 ⊆
      violatorIpsOf (check_concurrent_ips cfg panel st user t) user.email := by
  obtain ⟨_, h2, _⟩ := over_limit_facts cfg panel st user t hw hl hl0 hover
  obtain ⟨hmem, _, hips⟩ := h2 hlen
  refine ⟨hmem, ?_⟩
  unfold violatorIpsOf
  rw [hips]
  exact Finset.subset_union_right

/-- Witness for the amended C4 at the promotion of `userW`. -/
theorem c4_amended_superset_on_trigger_witness :
    (userW.email ∉ cfgW.whitelist_emails) ∧
    panelW.get_limit userW.email = some 1 ∧ ¬ (1 : Int) = 0 ∧
    (1 : Int) < (engine_ip_count cfgW (userW.get_recent_ips cfgW.concurrent_window 1) : Int) ∧
    cfgW.trigger_count ≤ (pruned_triggers cfgW DetectState.init userW.email 0).length ∧
    (userW.email ∈ (check_concurrent_ips cfgW panelW DetectState.init userW 0).current_violators ∧
      userW.get_recent_ips cfgW.concurrent_window 1 ⊆
        violatorIpsOf (check_concurrent_ips cfgW panelW DetectState.init userW 0) userW.email) :=
  ⟨by decide, by decide, by decide, by decide, by decide,
   @c4_amended_superset_on_trigger cfgW panelW DetectState.init userW 0 1 (by decide)
     (by decide) (by decide) (by decide) (by decide)⟩

/-! ## Tracker step effects on a single `(email, ip)` pair -/

/-- The users table after `process_entry`. -/
theorem process_entry_users (tr : UserTracker) (e : LogEntry) (node : String) :
    (tr.process_entry e node).1.users =
      minsert tr.users e.email
        (applyEntry ((mfind tr.users e.email).getD (UserInfo.init e.email)) e node) := rfl

/-- `process_entry` only changes `ip_stats` through `add_ip`. -/
theorem applyEntry_ip_stats (u : UserInfo) (e : LogEntry) (node : String) :
    (applyEntry u e node).ip_stats = (u.add_ip e.source_ip e.timestamp).ip_stats := by
  unfold applyEntry UserInfo.add_request
  dsimp only
  split <;> rfl

/-- `add_ip` writes `last_seen = t` for the added IP. -/
theorem add_ip_self (u : UserInfo) (ip : String) (t : Time) :
    ∃ c, mfind (u.add_ip ip t).ip_stats ip = some ⟨t, c⟩ := by
  unfold UserInfo.add_ip
  cases hs : mfind u.ip_stats ip
  · exact ⟨1, mfind_minsert_self _ _ _⟩
  · exact ⟨_, mfind_minsert_self _ _ _⟩

/-- `add_ip` leaves other IPs' statistics alone. -/
theorem add_ip_other (u : UserInfo) (ip ip' : String) (t : Time) (hne : ip ≠ ip') :
    mfind (u.add_ip ip t).ip_stats ip' = mfind u.ip_stats ip' := by
  unfold UserInfo.add_ip
  cases hs : mfind u.ip_stats ip
  · exact mfind_minsert_ne _ _ hne
  · exact mfind_minsert_ne _ _ hne

/-- After processing an entry, the entry's own `(email, ip)` records the
entry's timestamp as `last_seen`. -/
theorem step_ip_last_seen_self (tr : UserTracker) (e : LogEntry) (node : String) :
    ipLastSeen (tr.process_entry e node).1 e.email e.source_ip = some e.timestamp := by
  unfold ipLastSeen
  rw [process_entry_users, mfind_minsert_self]
  rw [Option.some_bind]
  rw [applyEntry_ip_stats]
  obtain ⟨c, hc⟩ := add_ip_self ((mfind tr.users e.email).getD (UserInfo.init e.email))
    e.source_ip e.timestamp
  rw [hc]
  rfl

/-- Processing an entry does not change `last_seen` of any other
`(email, ip)` pair. -/
theorem step_ip_last_seen_other (tr : UserTracker) (e : LogEntry) (node : String)
    (email ip : String) (h : ¬ (e.email = email ∧ e.source_ip = ip)) :
    ipLastSeen (tr.process_entry e node).1 email ip = ipLastSeen tr email ip := by
  unfold ipLastSeen
  rw [process_entry_users]
  by_cases he : e.email = email
  · subst he
    have hip : e.source_ip ≠ ip := fun hh => h ⟨rfl, hh⟩
    rw [mfind_minsert_self, Option.some_bind]
    rw [applyEntry_ip_stats, add_ip_other _ _ _ _ hip]
    cases hu : mfind tr.users e.email
    · rw [Option.none_bind, Option.getD_none]
      rfl
    · rw [Option.some_bind, Option.getD_some]
  · rw [mfind_minsert_ne _ _ he]

/-- A run over the concatenation with one extra entry. -/
theorem runEntries_concat (tr : UserTracker) (es : List (LogEntry × String))
    (p : LogEntry × String) :
    runEntries tr (es ++ [p]) = ((runEntries tr es).process_entry p.1 p.2).1 := by
  unfold runEntries
  rw [List.foldl_append]
  rfl

/-- `matchTs` over the concatenation with one extra entry. -/
theorem matchTs_concat (es : List (LogEntry × String)) (p : LogEntry × String)
    (email ip : String) :
    matchTs (es ++ [p]) email ip =
      matchTs es email ip ++
        (if p.1.email = email ∧ p.1.source_ip = ip then [p.1.timestamp] else []) := by
  unfold matchTs
  rw [List.filterMap_append]
  congr 1
  by_cases hcond : p.1.email = email ∧ p.1.source_ip = ip
  · rw [if_pos hcond]
    simp [hcond]
  · rw [if_neg hcond]
    simp [hcond]

/-! ## C5 — `last_seen` of an `(email, ip)` pair -/

/-- Counterexample to **C5** as stated: processing entries of `a@x` from
`1.1.1.1` at t = 10 and then t = 5 leaves `ip_stats["1.1.1.1"].last_seen`
at 5 (the unconditional overwrite in `add_ip`), while the maximum timestamp
over the processed entries with that pair is 10. -/
theorem c5_counterexample :
    ipLastSeen (runEntries trackerD outOfOrderPairs) "a@x" "1.1.1.1" = some 5 ∧
    (matchTs outOfOrderPairs "a@x" "1.1.1.1").maximum = ((10 : Time) : WithBot Time) ∧
    ¬ (((5 : Time) : WithBot Time) = ((10 : Time) : WithBot Time)) := by
  refine ⟨by decide, by decide, by decide⟩

/-- **C5 (amended).** For any sequence of processed entries and any pair
`(email, ip)` present in that user's `ip_stats`, `ip_stats[ip].last_seen`
equals the timestamp of the most recently processed entry carrying that
email and source IP — which is the maximum only when the matching entries
arrive in nondecreasing timestamp order. -/
theorem c5_amended_last_write (es : List (LogEntry × String)) (email ip : String) :
    ∀ v, ipLastSeen (runEntries trackerD es) email ip = some v →
      (matchTs es email ip).getLast? = some v := by
  induction es using List.reverseRecOn with
  | nil =>
    intro v hv
    simp [ipLastSeen, runEntries, trackerD, UserTracker.init] at hv
  | append_singleton rest p ih =>
    intro v hv
    rw [runEntries_concat] at hv
    by_cases hm : p.1.email = email ∧ p.1.source_ip = ip
    · rw [matchTs_concat, if_pos hm, List.getLast?_concat]
      obtain ⟨hme, hmi⟩ := hm
      subst hme
      subst hmi
      rw [step_ip_last_seen_self] at hv
      exact hv
    · rw [matchTs_concat, if_neg hm, List.append_nil]
      apply ih
      rw [step_ip_last_seen_other _ _ _ _ _ hm] at hv
      exact hv

/-- Witness for the amended C5: entries at t = 0 and t = 5 in order; the
last write is t = 5. -/
theorem c5_amended_last_write_witness :
    ipLastSeen (runEntries trackerD inOrderPairs) "a@x" "1.1.1.1" = some 5 ∧
    (matchTs inOrderPairs "a@x" "1.1.1.1").getLast? = some 5 :=
  ⟨by decide, c5_amended_last_write inOrderPairs "a@x" "1.1.1.1" 5 (by decide)⟩

/-! ## C6 — per-user tracker invariants -/

/-- Members of `minsert m k v` are the new binding or old members. -/
theorem mem_minsert {α : Type} (m : List (String × α)) (k : String) (v : α) :
    ∀ p ∈ minsert m k v, p = (k, v) ∨ p ∈ m := by
  induction m with
  | nil =>
    intro p hp
    unfold minsert at hp
    exact Or.inl (List.mem_singleton.mp hp)
  | cons q rest ih =>
    obtain ⟨k0, v0⟩ := q
    intro p hp
    unfold minsert at hp
    by_cases h : k0 = k
    · rw [if_pos h] at hp
      rcases List.mem_cons.mp hp with h1 | h1
      · exact Or.inl h1
      · exact Or.inr (List.mem_cons_of_mem _ h1)
    · rw [if_neg h] at hp
      rcases List.mem_cons.mp hp with h1 | h1
      · exact Or.inr (h1 ▸ List.mem_cons_self _ _)
      · rcases ih p h1 with h2 | h2
        · exact Or.inl h2
        · exact Or.inr (List.mem_cons_of_mem _ h2)

/-- A successful lookup exhibits a member. -/
theorem mfind_mem {α : Type} (m : List (String × α)) (k : String) (v : α)
    (h : mfind m k = some v) : (k, v) ∈ m := by
  induction m with
  | nil => simp [mfind] at h
  | cons q rest ih =>
    obtain ⟨k0, v0⟩ := q
    unfold mfind at h
    by_cases hk : k0 = k
    · rw [if_pos hk] at h
      subst hk
      obtain rfl : v0 = v := Option.some_inj.mp h
      exact List.mem_cons_self _ _
    · rw [if_neg hk] at h
      exact List.mem_cons_of_mem _ (ih h)

/-- A fresh user state satisfies the per-user invariants. -/
theorem userInv_init (email : String) : UserInv (UserInfo.init email) := by
  refine ⟨?_, ?_, ?_⟩
  · intro p hp
    simp [UserInfo.init] at hp
  · simp [UserInfo.init]
  · intro F hF
    simp [UserInfo.init] at hF

/-- `add_ip` changes nothing but `ip_stats`. -/
theorem add_ip_fields (u : UserInfo) (ip : String) (t : Time) :
    (u.add_ip ip t).last_seen = u.last_seen ∧
    (u.add_ip ip t).first_seen = u.first_seen ∧
    (u.add_ip ip t).request_count = u.request_count ∧
    (u.add_ip ip t).blocked_count = u.blocked_count := by
  unfold UserInfo.add_ip
  cases hs : mfind u.ip_stats ip
  · exact ⟨rfl, rfl, rfl, rfl⟩
  · exact ⟨rfl, rfl, rfl, rfl⟩

/-- `process_entry` sets the user's `last_seen` to the entry timestamp. -/
theorem applyEntry_last_seen (u : UserInfo) (e : LogEntry) (node : String) :
    (applyEntry u e node).last_seen = some e.timestamp := by
  unfold applyEntry UserInfo.add_request
  dsimp only
  split <;> rfl

/-- `process_entry` sets `first_seen` only when it was unset. -/
theorem applyEntry_first_seen (u : UserInfo) (e : LogEntry) (node : String) :
    (applyEntry u e node).first_seen =
      (match u.first_seen with | none => some e.timestamp | some f => some f) := by
  obtain ⟨_, hfst, _, _⟩ := add_ip_fields u e.source_ip e.timestamp
  unfold applyEntry UserInfo.add_request
  dsimp only
  split
  · dsimp only
    rw [hfst]
  · dsimp only
    rw [hfst]

/-- `process_entry` increments `request_count`, and `blocked_count` at most
as much. -/
theorem applyEntry_counts (u : UserInfo) (e : LogEntry) (node : String)
    (h : u.blocked_count ≤ u.request_count) :
    (applyEntry u e node).blocked_count ≤ (applyEntry u e node).request_count := by
  obtain ⟨_, _, hreq, hblk⟩ := add_ip_fields u e.source_ip e.timestamp
  unfold applyEntry UserInfo.add_request
  dsimp only
  split
  · dsimp only
    rw [hreq, hblk]
    omega
  · dsimp only
    rw [hreq, hblk]
    omega

/-- The per-user invariants survive `process_entry` on a user whose entries
arrive with nondecreasing timestamps. -/
theorem applyEntry_inv (u : UserInfo) (e : LogEntry) (node : String)
    (hinv : UserInv u)
    (hmono : ∀ L, u.last_seen = some L → L ≤ e.timestamp) :
    UserInv (applyEntry u e node) := by
  have hls := applyEntry_last_seen u e node
  have hip := applyEntry_ip_stats u e node
  have hfs := applyEntry_first_seen u e node
  refine ⟨?_, applyEntry_counts u e node hinv.2.1, ?_⟩
  · intro p hp
    rw [hip] at hp
    refine ⟨e.timestamp, hls, ?_⟩
    unfold UserInfo.add_ip at hp
    rcases hmem : mfind u.ip_stats e.source_ip with _ | s
    · rw [hmem] at hp
      dsimp only at hp
      rcases mem_minsert _ _ _ p hp with h | h
      · rw [h]
      · obtain ⟨L, hL, hle⟩ := hinv.1 p h
        exact le_trans hle (hmono L hL)
    · rw [hmem] at hp
      dsimp only at hp
      rcases mem_minsert _ _ _ p hp with h | h
      · rw [h]
      · obtain ⟨L, hL, hle⟩ := hinv.1 p h
        exact le_trans hle (hmono L hL)
  · intro F hF
    rw [hfs] at hF
    refine ⟨e.timestamp, hls, ?_⟩
    cases hf0 : u.first_seen
    · rw [hf0] at hF
      dsimp only at hF
      exact le_of_eq (Option.some_inj.mp hF).symm
    · rw [hf0] at hF
      dsimp only at hF
      rename_i f
      obtain ⟨L, hL, hle⟩ := hinv.2.2 f hf0
      have h1 := hmono L hL
      have h2 : f = F := Option.some_inj.mp hF
      exact h2 ▸ le_trans hle h1

/-- The tracker's logical clock after `process_entry`. -/
theorem process_entry_latest (tr : UserTracker) (e : LogEntry) (node : String) :
    (tr.process_entry e node).1.latest_timestamp =
      (match tr.latest_timestamp with
       | none => some e.timestamp
       | some l => some (if l < e.timestamp then e.timestamp else l)) := rfl

/-- If the logical clock was bounded by the entry timestamp, so is the new
clock. -/
theorem process_entry_latest_le (tr : UserTracker) (e : LogEntry) (node : String)
    (hb : ∀ l, tr.latest_timestamp = some l → l ≤ e.timestamp) :
    ∀ M, (tr.process_entry e node).1.latest_timestamp = some M → M ≤ e.timestamp := by
  intro M hM
  rw [process_entry_latest] at hM
  cases hlat : tr.latest_timestamp with
  | none =>
    rw [hlat] at hM
    dsimp only at hM
    exact le_of_eq (Option.some_inj.mp hM).symm
  | some l =>
    rw [hlat] at hM
    dsimp only at hM
    have h1 := Option.some_inj.mp hM
    have h2 := hb l hlat
    by_cases hlt : l < e.timestamp
    · rw [if_pos hlt] at h1
      exact le_of_eq h1.symm
    · rw [if_neg hlt] at h1
      exact h1 ▸ h2

/-- The tracker-level invariants survive `process_entry` when the entry's
timestamp is at least the logical clock. -/
theorem process_entry_inv (tr : UserTracker) (e : LogEntry) (node : String)
    (hinv : TrackerInv tr)
    (hmono : ∀ M, tr.latest_timestamp = some M → M ≤ e.timestamp) :
    TrackerInv (tr.process_entry e node).1 := by
  have hmono_u : ∀ L,
      ((mfind tr.users e.email).getD (UserInfo.init e.email)).last_seen = some L →
      L ≤ e.timestamp := by
    intro L hL
    cases hu : mfind tr.users e.email with
    | none =>
      rw [hu] at hL
      simp [UserInfo.init] at hL
    | some u =>
      rw [hu, Option.getD_some] at hL
      obtain ⟨M, hM, hLM⟩ := hinv.2 (e.email, u) (mfind_mem _ _ _ hu) L hL
      exact le_trans hLM (hmono M hM)
  have hinv_u : UserInv ((mfind tr.users e.email).getD (UserInfo.init e.email)) := by
    cases hu : mfind tr.users e.email with
    | none => exact userInv_init e.email
    | some u => exact hinv.1 (e.email, u) (mfind_mem _ _ _ hu)
  constructor
  · intro p hp
    rw [process_entry_users] at hp
    rcases mem_minsert _ _ _ p hp with h | h
    · rw [h]
      exact applyEntry_inv _ e node hinv_u hmono_u
    · exact hinv.1 p h
  · intro p hp L hL
    rw [process_entry_users] at hp
    rw [process_entry_latest]
    rcases mem_minsert _ _ _ p hp with h | h
    · rw [h] at hL
      dsimp only at hL
      rw [applyEntry_last_seen] at hL
      obtain rfl : e.timestamp = L := Option.some_inj.mp hL
      cases hlat : tr.latest_timestamp with
      | none => exact ⟨e.timestamp, rfl, le_refl _⟩
      | some l =>
        refine ⟨if l < e.timestamp then e.timestamp else l, rfl, ?_⟩
        split
        · exact le_refl _
        · rename_i h
          exact le_of_not_lt h
    · obtain ⟨M, hM, hLM⟩ := hinv.2 p h L hL
      rw [hM]
      dsimp only
      refine ⟨if M < e.timestamp then e.timestamp else M, rfl, ?_⟩
      split
      · rename_i h
        exact le_trans hLM (le_of_lt h)
      · exact hLM

/-- `cleanup_old_data` keeps the logical clock. -/
theorem cleanup_latest (tr : UserTracker) :
    tr.cleanup_old_data.latest_timestamp = tr.latest_timestamp := by
  unfold UserTracker.cleanup_old_data
  split
  · rfl
  · rfl

/-- `cleanup_old_ips` keeps the per-user invariants and `last_seen`. -/
theorem cleanup_old_ips_inv (u : UserInfo) (w : Int) (h : UserInv u) :
    UserInv (u.cleanup_old_ips w) ∧ (u.cleanup_old_ips w).last_seen = u.last_seen := by
  unfold UserInfo.cleanup_old_ips
  cases hl : u.last_seen with
  | none => exact ⟨h, hl⟩
  | some ls =>
    dsimp only
    refine ⟨⟨?_, h.2.1, ?_⟩, rfl⟩
    · intro p hp
      obtain ⟨L, hL, hle⟩ := h.1 p (List.mem_of_mem_filter hp)
      refine ⟨L, ?_, hle⟩
      show (some ls : Option Time) = some L
      rw [← hl]
      exact hL
    · intro F hF
      obtain ⟨L, hL, hle⟩ := h.2.2 F hF
      refine ⟨L, ?_, hle⟩
      show (some ls : Option Time) = some L
      rw [← hl]
      exact hL

/-- The tracker-level invariants survive `cleanup_old_data`. -/
theorem cleanup_inv (tr : UserTracker) (hinv : TrackerInv tr) :
    TrackerInv tr.cleanup_old_data := by
  unfold UserTracker.cleanup_old_data
  cases hlat : tr.latest_timestamp with
  | none => exact hinv
  | some latest =>
    dsimp only
    constructor
    · intro p hp
      rcases List.mem_filterMap.mp hp with ⟨q, hq, hfq⟩
      rcases hq2 : q.2.last_seen with _ | ls
      · rw [hq2] at hfq
        dsimp only at hfq
        obtain rfl : (q.1, q.2.cleanup_old_ips tr.window_seconds) = p :=
          Option.some_inj.mp hfq
        exact (cleanup_old_ips_inv q.2 _ (hinv.1 q hq)).1
      · rw [hq2] at hfq
        dsimp only at hfq
        by_cases hlt : ls < latest - tr.max_age_seconds
        · rw [if_pos hlt] at hfq
          exact absurd hfq (by simp)
        · rw [if_neg hlt] at hfq
          obtain rfl : (q.1, q.2.cleanup_old_ips tr.window_seconds) = p :=
            Option.some_inj.mp hfq
          exact (cleanup_old_ips_inv q.2 _ (hinv.1 q hq)).1
    · intro p hp L hL
      rcases List.mem_filterMap.mp hp with ⟨q, hq, hfq⟩
      have hback : p.2.last_seen = q.2.last_seen ∧ p.1 = q.1 := by
        rcases hq2 : q.2.last_seen with _ | ls
        · rw [hq2] at hfq
          dsimp only at hfq
          obtain rfl : (q.1, q.2.cleanup_old_ips tr.window_seconds) = p :=
            Option.some_inj.mp hfq
          exact ⟨(cleanup_old_ips_inv q.2 _ (hinv.1 q hq)).2.trans hq2, rfl⟩
        · rw [hq2] at hfq
          dsimp only at hfq
          by_cases hlt : ls < latest - tr.max_age_seconds
          · rw [if_pos hlt] at hfq
            exact absurd hfq (by simp)
          · rw [if_neg hlt] at hfq
            obtain rfl : (q.1, q.2.cleanup_old_ips tr.window_seconds) = p :=
              Option.some_inj.mp hfq
            exact ⟨(cleanup_old_ips_inv q.2 _ (hinv.1 q hq)).2.trans hq2, rfl⟩
      obtain ⟨M, hM, hLM⟩ := hinv.2 q hq L (by rw [← hback.1]; exact hL)
      refine ⟨M, ?_, hLM⟩
      show some latest = some M
      rw [← hlat]
      exact hM

/-- Running any operation list whose entry timestamps are sorted and bounded
below by the logical clock preserves the tracker-level invariants. -/
theorem runOps_inv : ∀ (ops : List TrackerOp) (tr : UserTracker),
    TrackerInv tr →
    (∀ t ∈ entryTimes ops, ∀ M, tr.latest_timestamp = some M → M ≤ t) →
    List.Sorted (· ≤ ·) (entryTimes ops) →
    TrackerInv (runOps tr ops) := by
  intro ops
  induction ops with
  | nil => intro tr h _ _; exact h
  | cons op rest ih =>
    intro tr hinv hbound hsorted
    cases op with
    | cleanup =>
      refine ih tr.cleanup_old_data (cleanup_inv tr hinv) ?_ ?_
      · intro t ht M hM
        rw [cleanup_latest] at hM
        exact hbound t ht M hM
      · exact hsorted
    | entry e node =>
      have hb1 : ∀ l, tr.latest_timestamp = some l → l ≤ e.timestamp := by
        intro l hl
        exact hbound e.timestamp (List.mem_cons_self _ _) l hl
      have hsplit := List.sorted_cons.mp (hsorted : List.Sorted (· ≤ ·)
        (e.timestamp :: entryTimes rest))
      refine ih (tr.process_entry e node).1
        (process_entry_inv tr e node hinv (fun M hM => hb1 M hM)) ?_ hsplit.2
      intro t ht M hM
      exact le_trans (process_entry_latest_le tr e node hb1 M hM) (hsplit.1 t ht)

/-- Counterexample to **C6** as stated: processing entries of `a@x` at
t = 10 and then t = 5 (out of order) leaves `first_seen = 10` and
`last_seen = 5`, violating `first_seen ≤ last_seen` — `process_entry`
overwrites `last_seen` unconditionally. -/
theorem c6_counterexample :
    userFirstSeen (runOps trackerD outOfOrderOps) "a@x" = some 10 ∧
    userLastSeen (runOps trackerD outOfOrderOps) "a@x" = some 5 ∧
    ¬ (∀ F L : Time, userFirstSeen (runOps trackerD outOfOrderOps) "a@x" = some F →
        userLastSeen (runOps trackerD outOfOrderOps) "a@x" = some L → F ≤ L) :=
  ⟨by decide, by decide, fun h => absurd (h 10 5 (by decide) (by decide)) (by decide)⟩

/-- **C6 (amended).** After every tracker operation (`process_entry`,
`cleanup_old_data`) on an operation sequence whose entry timestamps are
processed in nondecreasing order, every per-user state satisfies the three
invariants: for every IP in `ip_stats`, that IP's `last_seen ≤ user.last_seen`;
`request_count ≥ blocked_count`; and `first_seen ≤ last_seen`.  Out-of-order
timestamps can violate the first and third (see `c6_counterexample`);
`request_count ≥ blocked_count` alone would hold unconditionally. -/
theorem c6_amended_user_invariants (w a : Int) (ops : List TrackerOp)
    (hsorted : List.Sorted (· ≤ ·) (entryTimes ops)) :
    ∀ email u, mfind (runOps (UserTracker.init w a) ops).users email = some u →
      UserInv u := by
  intro email u hu
  have hinv0 : TrackerInv (UserTracker.init w a) := by
    constructor
    · intro p hp
      simp [UserTracker.init] at hp
    · intro p hp
      simp [UserTracker.init] at hp
  have hbound0 : ∀ t ∈ entryTimes ops, ∀ M,
      (UserTracker.init w a).latest_timestamp = some M → M ≤ t := by
    intro t ht M hM
    simp [UserTracker.init] at hM
  exact (runOps_inv ops (UserTracker.init w a) hinv0 hbound0 hsorted).1
    (email, u) (mfind_mem _ _ _ hu)

/-- Witness for the amended C6 on the in-order operation list. -/
theorem c6_amended_user_invariants_witness :
    List.Sorted (· ≤ ·) (entryTimes inOrderOps) ∧
    (∀ email u, mfind (runOps (UserTracker.init 2 300) inOrderOps).users email = some u →
      UserInv u) :=
  ⟨by decide, c6_amended_user_invariants 2 300 inOrderOps (by decide)⟩
